import Mathlib

/-!
Verification development for the Promise-HandWriting repository
(`src/unnamed/part_000`, with `src/MyPromise.js` an earlier cut of the same
file).  The JavaScript code implements a Promise/A+-style deferred value
("Future"): a state machine (`_changeState`, `_resolve`, `_reject`), a FIFO
handler queue drained through a microtask scheduling adapter
(`_runHandlers`, `_runOneHandler`, `runMicroTask`), the chaining operation
`then`, and the static combinators `resolve`, `reject`, `all`, `allSettled`
and `race`.

The shallow embedding below models the whole engine operationally:

* a `World` holds the heap of `MyPromise` objects (indexed by allocation
  order), the microtask queue of scheduled handler dispatches, and the
  mutable closure records created by `MyPromise.all`;
* JavaScript functions that the engine stores or invokes are
  defunctionalized as `JsFn` (the bound `_resolve`/`_reject` capabilities,
  `all`'s per-index callback, `allSettled`'s two tagging callbacks, and a
  few closed user-continuation shapes used in scenarios);
* the scheduling adapter is modelled two ways, matching its two roles:
  `runMicroTaskDispatch` embeds the host-branching body of `runMicroTask`
  (lines 11-19) literally, while inside the operational model scheduling a
  callback is appending a task to the world's FIFO `microtasks` queue — the
  spec's stated assumption that the adapter preserves FIFO order;
* `fired` and the per-handler `hid` field are ghost instrumentation: `hid`
  tags each handler registration with a unique id at `_pushHandler` time,
  and the queue runner appends the id of a task to `fired` exactly when it
  pops the task and runs its scheduled callback.  They let temporal
  claims ("executed exactly once, never synchronously") be stated as
  equations on the log; no engine decision reads them.
-/

namespace MyPromise

/-- The three state constants of the source (lines 2-4). -/
def PENDING : String := "pending"

/-- State constant `FULFILLED` (source line 3). -/
def FULFILLED : String := "fulfilled"

/-- State constant `REJECTED` (source line 4). -/
def REJECTED : String := "rejected"

mutual

/-- JavaScript values the engine manipulates: primitives, arrays, plain
objects (field lists), references to `MyPromise` instances on the heap, and
functions (defunctionalized as `JsFn`). -/
inductive JsValue where
  | undef : JsValue
  | null : JsValue
  | boolean : Bool → JsValue
  | num : Int → JsValue
  | str : String → JsValue
  | arr : List JsValue → JsValue
  | obj : List (String × JsValue) → JsValue
  | promiseRef : Nat → JsValue
  | fn : JsFn → JsValue

/-- Defunctionalized JavaScript functions.

`cap isResolve pid` is the bound `_resolve`/`_reject` capability of promise
`pid` (source lines 40, 160-172).  `allCb cid i` is the success callback
`data => {...}` that `MyPromise.all` creates for input index `i` over the
mutable closure record `cid` (source lines 218-225).  `tagFulfilled` and
`tagRejected` are the two continuations `allSettled` passes to `then`
(source lines 245-252).  The remaining constructors are closed
user-continuation shapes used by concrete scenarios: `constFn v` is
`x => v` (also `x => somePromise` when `v` is a `promiseRef`), `idFn` is
`x => x`, and `throwFn e` is `x => { throw e }`. -/
inductive JsFn where
  | cap : Bool → Nat → JsFn
  | allCb : Nat → Nat → JsFn
  | tagFulfilled : JsFn
  | tagRejected : JsFn
  | constFn : JsValue → JsFn
  | idFn : JsFn
  | throwFn : JsValue → JsFn

end

/-- One entry of a promise's `_handlers` queue (source lines 53-60).  The
field names follow the source object literal; `hid` is ghost
instrumentation (a unique registration id) and is read by no engine
decision. -/
structure Handler where
  executor : JsValue
  state : String
  resolveFn : JsValue
  rejectFn : JsValue
  hid : Nat

/-- One `MyPromise` instance: `_state`, `_value`, `_handlers`
(source lines 36-38). -/
structure PromiseObj where
  pstate : String
  pvalue : JsValue
  handlers : List Handler

/-- The mutable closure record of one `MyPromise.all` call: `results`,
`count`, `fulfilledCount` (source lines 212-214) and the result promise the
captured `resolve`/`reject` capabilities are bound to.  `results` is a
JavaScript array written by `results[i] = data`, so a slot is `none` until
its index has been assigned (JS array holes). -/
structure AllClosure where
  results : List (Option JsValue)
  count : Nat
  fulfilledCount : Nat
  resultPid : Nat

/-- A scheduled microtask: the dispatch of one handler of promise `pid`,
i.e. the callback `_runOneHandler` hands to `runMicroTask`
(source lines 80-104). -/
structure Task where
  pid : Nat
  h : Handler

/-- The global state: the promise heap, the FIFO queue of callbacks handed
to the scheduling adapter, the `all`-closure records, the next ghost
handler id, and the ghost log of handler ids whose scheduled callback has
run. -/
structure World where
  promises : List PromiseObj
  microtasks : List Task
  closures : List AllClosure
  nextHid : Nat
  fired : List Nat

/-- The empty world: no promises, nothing scheduled. -/
def World.empty : World := ⟨[], [], [], 0, []⟩

/-- State of promise `pid`, when it exists. -/
def stateAt (w : World) (pid : Nat) : Option String :=
  (w.promises[pid]?).map PromiseObj.pstate

/-- Settled value of promise `pid`, when it exists. -/
def valueAt (w : World) (pid : Nat) : Option JsValue :=
  (w.promises[pid]?).map PromiseObj.pvalue

/-- Handler queue of promise `pid`, when it exists. -/
def handlersAt (w : World) (pid : Nat) : Option (List Handler) :=
  (w.promises[pid]?).map PromiseObj.handlers

/-- Replace promise `pid` on the heap. -/
def setPromise (w : World) (pid : Nat) (p : PromiseObj) : World :=
  { w with promises := w.promises.set pid p }

/-- Replace closure record `cid`. -/
def setClosure (w : World) (cid : Nat) (c : AllClosure) : World :=
  { w with closures := w.closures.set cid c }

/-- Is the value callable, i.e. does `typeof v === "function"` hold
(the test of source lines 86 and 27)? -/
def isCallable : JsValue → Bool
  | .fn _ => true
  | _ => false

/-- The `isPromise` duck test of source lines 26-28:
`obj && typeof obj === "object" && typeof obj.then === "function"`,
evaluated per value form.  A `promiseRef` is a truthy object whose `then`
method is callable; a plain object passes when it carries a callable
`"then"` field; `null` is falsy, and functions/primitives fail the
`typeof obj === "object"` test. -/
def isPromise : JsValue → Bool
  | .promiseRef _ => true
  | .obj fields => (fields.lookup "then").elim false isCallable
  | _ => false

/-- `_pushHandler` (source lines 53-60): append a registration to the
queue, stamping it with the next ghost id. -/
def pushHandler (w : World) (pid : Nat) (executor : JsValue) (st : String)
    (resolveFn rejectFn : JsValue) : World :=
  match w.promises[pid]? with
  | none => w
  | some p =>
      { setPromise w pid
          { p with handlers := p.handlers ++ [⟨executor, st, resolveFn, rejectFn, w.nextHid⟩] }
        with nextHid := w.nextHid + 1 }

/-- `_runHandlers` (source lines 65-74): a no-op while pending; once
settled, the `while` loop passes each queued handler, front to back, to
`_runOneHandler` — which only hands a callback to the scheduling adapter
(source line 81) — and `shift`s it off.  Net effect, since nothing in the
loop body touches the queue: every queued handler is appended to the
adapter's FIFO queue in registration order and the queue is cleared. -/
def runHandlers (w : World) (pid : Nat) : World :=
  match w.promises[pid]? with
  | none => w
  | some p =>
      if p.pstate = PENDING then w
      else
        { setPromise w pid { p with handlers := [] } with
            microtasks := w.microtasks ++ p.handlers.map (fun h => ⟨pid, h⟩) }

/-- `_changeState` (source lines 146-154): a no-op unless currently
pending; otherwise record the new state and value, then drain the handler
queue. -/
def changeState (w : World) (pid : Nat) (newState : String) (value : JsValue) : World :=
  match w.promises[pid]? with
  | none => w
  | some p =>
      if p.pstate ≠ PENDING then w
      else runHandlers (setPromise w pid { p with pstate := newState, pvalue := value }) pid

/-- Result of calling a JavaScript function: normal return or thrown
error. -/
inductive CallResult where
  | normal : JsValue → CallResult
  | thrown : JsValue → CallResult

/-- The JavaScript assignment `results[i] = data` on an array: pad with
holes up to index `i` when it lies past the end, then set slot `i`. -/
def allSetIdx (l : List (Option JsValue)) (i : Nat) (v : JsValue) : List (Option JsValue) :=
  (l ++ List.replicate (i + 1 - l.length) none).set i (some v)

/-- Read slot `i` of an `all` results array: `none` both for a hole and
past the end. -/
def allSlot (l : List (Option JsValue)) (i : Nat) : Option JsValue :=
  (l[i]?).getD none

/-- The dense JavaScript array a results list denotes (a hole reads as
`undefined`). -/
def allResultsArr (l : List (Option JsValue)) : JsValue :=
  .arr (l.map (fun o => o.getD .undef))

/-- Apply a defunctionalized function to one argument.

* `cap true pid` is the bound `_resolve` (source lines 160-163),
  `cap false pid` the bound `_reject` (lines 169-172): both route through
  `_changeState`.
* `allCb cid i` is `all`'s per-index callback (source lines 218-224):
  `fulfilledCount++; results[i] = data;` then, when every input has
  fulfilled, `resolve(results)` — the captured `resolve` being the bound
  `_resolve` of the result promise, i.e. `_changeState(FULFILLED, results)`.
* `tagFulfilled` returns `{status: FULFILLED, value}` (source lines
  245-248) and `tagRejected` returns `{status: FULFILLED, reason}` — the
  source (lines 249-252) really writes `FULFILLED` in the rejection
  branch.
* calling a non-function throws a `TypeError`. -/
def callFn (w : World) (f : JsValue) (arg : JsValue) : World × CallResult :=
  match f with
  | .fn (.cap isResolve pid) =>
      (changeState w pid (if isResolve then FULFILLED else REJECTED) arg, .normal .undef)
  | .fn (.allCb cid i) =>
      (match w.closures[cid]? with
       | none => (w, CallResult.normal .undef)
       | some c =>
           let c' : AllClosure :=
             { c with fulfilledCount := c.fulfilledCount + 1,
                      results := allSetIdx c.results i arg }
           let w1 := setClosure w cid c'
           if c'.fulfilledCount = c'.count then
             (changeState w1 c.resultPid FULFILLED (allResultsArr c'.results),
              CallResult.normal .undef)
           else (w1, CallResult.normal .undef))
  | .fn .tagFulfilled =>
      (w, .normal (.obj [("status", .str FULFILLED), ("value", arg)]))
  | .fn .tagRejected =>
      (w, .normal (.obj [("status", .str FULFILLED), ("reason", arg)]))
  | .fn (.constFn v) => (w, .normal v)
  | .fn .idFn => (w, .normal arg)
  | .fn (.throwFn e) => (w, .thrown e)
  | _ => (w, .thrown (.str "TypeError: not a function"))

/-- The constructor (source lines 35-44): allocate a pending promise with
an empty queue, run the executor synchronously with the two bound
capabilities, and if it throws, feed the error to `_reject`.  The executor
is passed as the function of the world and the fresh promise id it may
settle; it returns the new world and the error it throws, if any. -/
def construct (w : World) (exec : World → Nat → World × Option JsValue) : World × Nat :=
  let pid := w.promises.length
  let w1 : World := { w with promises := w.promises ++ [⟨PENDING, .undef, []⟩] }
  match exec w1 pid with
  | (w2, none) => (w2, pid)
  | (w2, some e) => ((callFn w2 (.fn (.cap false pid)) e).1, pid)

/-- `then` (source lines 111-117): build a new promise whose executor
registers the two continuations against the source — one watching
`FULFILLED`, one watching `REJECTED`, both wired to the new promise's
capabilities — then immediately attempts to drain the source's queue.
Returns the world and the id of the new promise. -/
def mthen (w : World) (selfPid : Nat) (onFulfilled onRejected : JsValue) : World × Nat :=
  construct w (fun w1 pid =>
    let w2 := pushHandler w1 selfPid onFulfilled FULFILLED
      (.fn (.cap true pid)) (.fn (.cap false pid))
    let w3 := pushHandler w2 selfPid onRejected REJECTED
      (.fn (.cap true pid)) (.fn (.cap false pid))
    (runHandlers w3 selfPid, none))

/-- The scheduled callback of `_runOneHandler` (source lines 81-103), run
when the adapter dispatches the task.  The ghost log records that this
registration's callback ran.  Then, exactly as the source: skip on state
mismatch; a non-function continuation forwards the settled value to the
downstream capability matching the state; a function continuation is
invoked, its thrown error rejects downstream, a Promise-like result is
adopted via `result.then(resolve, reject)`, and any other result fulfills
downstream.  (Only `MyPromise` instances occur as Promise-like results in
this development, so adoption goes through `mthen`.) -/
def runTask (w0 : World) (t : Task) : World :=
  let w : World := { w0 with fired := w0.fired ++ [t.h.hid] }
  match w.promises[t.pid]? with
  | none => w
  | some p =>
      if p.pstate ≠ t.h.state then w
      else if ¬ isCallable t.h.executor then
        (if p.pstate = FULFILLED then (callFn w t.h.resolveFn p.pvalue).1
         else (callFn w t.h.rejectFn p.pvalue).1)
      else
        match callFn w t.h.executor p.pvalue with
        | (w', .normal result) =>
            if isPromise result then
              match result with
              | .promiseRef rid => (mthen w' rid t.h.resolveFn t.h.rejectFn).1
              | _ => w'
            else (callFn w' t.h.resolveFn result).1
        | (w', .thrown e) => (callFn w' t.h.rejectFn e).1

/-- Pop the head of the adapter's FIFO queue and run it; a no-op on an
empty queue. -/
def stepQueue (w : World) : World :=
  match w.microtasks with
  | [] => w
  | t :: ts => runTask { w with microtasks := ts } t

/-- Run the microtask queue to quiescence, fuel-bounded. -/
def runQueue : Nat → World → World
  | 0, w => w
  | fuel + 1, w =>
      match w.microtasks with
      | [] => w
      | t :: ts => runQueue fuel (runTask { w with microtasks := ts } t)

/-- Static `MyPromise.resolve` (source lines 181-192): a `MyPromise`
instance is returned unchanged (`data instanceof MyPromise`); otherwise a
new promise is constructed whose executor fulfills it with `data` at once.
(The source's `isPromise(data)` branch, `data.then(resolve, reject)` for a
foreign thenable, is unreachable here: no value of this development other
than a `promiseRef` passes `isPromise`, plain objects with a callable
`"then"` field never being constructed.) -/
def sresolve (w : World) (data : JsValue) : World × Nat :=
  match data with
  | .promiseRef pid => (w, pid)
  | _ =>
      construct w (fun w1 pid =>
        ((callFn w1 (.fn (.cap true pid)) data).1, none))

/-- Static `MyPromise.reject` (source lines 198-202): a new promise whose
executor rejects it with `reason` at once. -/
def sreject (w : World) (reason : JsValue) : World × Nat :=
  construct w (fun w1 pid =>
    ((callFn w1 (.fn (.cap false pid)) reason).1, none))

/-- The `for (const promise of proms)` loop of `MyPromise.all`
(source lines 215-226): for each input, read the closure's current `count`
as `i`, increment `count`, normalize the input through `MyPromise.resolve`,
and chain `.then(allCb i, reject)` — the rejection continuation being the
result promise's bound `_reject`. -/
def sallLoop (w : World) (cid : Nat) : List JsValue → World
  | [] => w
  | prom :: rest =>
      match w.closures[cid]? with
      | none => w
      | some c =>
          let i := c.count
          let w1 := setClosure w cid { c with count := c.count + 1 }
          let p1 := sresolve w1 prom
          let p2 := mthen p1.1 p1.2 (.fn (.allCb cid i)) (.fn (.cap false c.resultPid))
          sallLoop p2.1 cid rest

/-- Static `MyPromise.all` (source lines 209-234): construct a result
promise; its executor allocates the mutable closure (`results = []`,
`count = 0`, `fulfilledCount = 0`) bound to the result promise, runs the
loop over the inputs, and finally fulfills with the (empty) results array
when `count === 0`.  The iterable is a Lean list, so the source's
`try/catch` around the loop has nothing to catch. -/
def sall (w : World) (proms : List JsValue) : World × Nat :=
  construct w (fun w1 rp =>
    let cid := w1.closures.length
    let w2 : World := { w1 with closures := w1.closures ++ [⟨[], 0, 0, rp⟩] }
    let w3 := sallLoop w2 cid proms
    match w3.closures[cid]? with
    | none => (w3, none)
    | some c =>
        if c.count = 0 then
          ((callFn w3 (.fn (.cap true rp)) (allResultsArr c.results)).1, none)
        else (w3, none))

/-- The `for (const p of proms)` loop of `MyPromise.allSettled`
(source lines 242-255): map each input through
`MyPromise.resolve(p).then(tagFulfilled, tagRejected)`, collecting the
chained promises in order. -/
def sallSettledLoop (w : World) : List JsValue → World × List Nat
  | [] => (w, [])
  | p :: rest =>
      let p1 := sresolve w p
      let p2 := mthen p1.1 p1.2 (.fn .tagFulfilled) (.fn .tagRejected)
      let p3 := sallSettledLoop p2.1 rest
      (p3.1, p2.2 :: p3.2)

/-- Static `MyPromise.allSettled` (source lines 240-257): build the list of
tagged promises, then hand it to `MyPromise.all`. -/
def sallSettled (w : World) (proms : List JsValue) : World × Nat :=
  let p1 := sallSettledLoop w proms
  sall p1.1 (p1.2.map .promiseRef)

/-- Static `MyPromise.race` (source lines 263-269).  The source builds its
result with `MyPromise((resolve, reject) => {...})` — a class constructor
invoked without `new`, which in JavaScript throws a `TypeError` before the
executor body ever runs, for any argument.  So the observable behavior of
`race` is: throw, regardless of the inputs. -/
def race (_w : World) (_proms : List JsValue) : Except JsValue (World × Nat) :=
  .error (.str "TypeError: Class constructor MyPromise cannot be invoked without new")

/-- The executor loop of `race` (source lines 265-267):
`MyPromise.resolve(p).then(resolve, reject)` for each input, both
continuations being the result promise's capabilities. -/
def raceLoop (w : World) (rp : Nat) : List JsValue → World
  | [] => w
  | p :: rest =>
      let p1 := sresolve w p
      let p2 := mthen p1.1 p1.2 (.fn (.cap true rp)) (.fn (.cap false rp))
      raceLoop p2.1 rp rest

/-- Modelled from the spec: spec section 9 notes the source's `race` omits
the `new` construction step and directs implementers to "treat `race` as
returning a properly constructed Future and not replicate the omission".
This definition restores the `new`; the executor body is `raceLoop`,
exactly the source's lines 265-267. -/
def raceConstructed (w : World) (proms : List JsValue) : World × Nat :=
  construct w (fun w1 rp => (raceLoop w1 rp proms, none))

/-- A host facility the scheduling adapter can hand a callback to. -/
inductive Facility where
  | nextTick : Facility
  | timeoutZero : Facility

/-- Truthiness of the host globals `runMicroTask` branches on. -/
structure HostEnv where
  processTruthy : Bool
  nextTickTruthy : Bool
  mutationObserverTruthy : Bool

/-- The branch structure of `runMicroTask` (source lines 11-19), as a
function from the host environment to the facility that receives the
callback: the first branch (`process && process.nextTick`) hands it to
`process.nextTick`; the second branch (`MutationObserver` truthy) has an
empty body, so the callback is handed to nothing at all; the final branch
hands it to `setTimeout(callback, 0)`. -/
def runMicroTaskDispatch (env : HostEnv) : Option Facility :=
  if env.processTruthy && env.nextTickTruthy then some .nextTick
  else if env.mutationObserverTruthy then none
  else some .timeoutZero

/-- One outcome delivery into a `MyPromise.all` closure: the firing of the
handler `all` registered on one input.  `fulfillIdx i v` is input `i`
fulfilling with `v`, which fires the callback `allCb cid i`
(source lines 218-224); `rejectWith r` is an input rejecting with `r`,
which fires the `reject` continuation of source line 225 — the result
promise's bound `_reject`. -/
inductive Delivery where
  | fulfillIdx : Nat → JsValue → Delivery
  | rejectWith : JsValue → Delivery

/-- Fire one delivery against closure `cid`, exactly as the registered
continuation would be invoked. -/
def deliver (w : World) (cid : Nat) : Delivery → World
  | .fulfillIdx i v => (callFn w (.fn (.allCb cid i)) v).1
  | .rejectWith r =>
      match w.closures[cid]? with
      | none => w
      | some c => (callFn w (.fn (.cap false c.resultPid)) r).1

/-- Fire a sequence of deliveries in order. -/
def deliverList (w : World) (cid : Nat) : List Delivery → World
  | [] => w
  | d :: ds => deliverList (deliver w cid d) cid ds

/-- A world holding one promise already settled to state `s` with value
`v` — the generic post-settlement configuration scenario theorems chain
from (its promise has id `0`). -/
def singleSettled (s : String) (v : JsValue) : World :=
  ⟨[⟨s, v, []⟩], [], [], 0, []⟩

/-- The `allSettled([Pok, Pfail])` scenario of the spec's testable
properties: `Pok` fulfilled with `1`, `Pfail` rejected with `"x"`, handed
to `allSettled`, and the adapter's queue run to quiescence.  The result
promise has id `4`. -/
def allSettledDemo : World :=
  let p1 := sresolve World.empty (.num 1)
  let p2 := sreject p1.1 (.str "x")
  let p3 := sallSettled p2.1 [.promiseRef p1.2, .promiseRef p2.2]
  runQueue 20 p3.1

/-- The `race([P1, P2])` scenario of the spec's testable properties, run
against the `new`-restored `raceConstructed`: `P1` (id `0`) still pending,
`P2` (id `1`) fulfilled with `"fast"`; after the race is wired up and the
queue drained, `P1` belatedly fulfills with `"slow"` and the queue is
drained again.  The race result promise has id `2`. -/
def raceDemo : World :=
  let p0 := construct World.empty (fun w _ => (w, none))
  let p1 := sresolve p0.1 (.str "fast")
  let r := raceConstructed p1.1 [.promiseRef 0, .promiseRef 1]
  let wa := runQueue 20 r.1
  let wb := (callFn wa (.fn (.cap true 0)) (.str "slow")).1
  runQueue 20 wb

/-- A fulfillment-watching handler registration (ghost id `0`) used by the
C2 witness scenario. -/
def c2h0 : Handler := ⟨.fn .idFn, FULFILLED, .undef, .undef, 0⟩

/-- A rejection-watching handler registration (ghost id `1`) used by the
C2 witness scenario. -/
def c2h1 : Handler := ⟨.undef, REJECTED, .undef, .undef, 1⟩

/-- A world holding one pending promise with two queued registrations,
the configuration the C2 witness settles. -/
def c2World : World := ⟨[⟨PENDING, .undef, [c2h0, c2h1]⟩], [], [], 2, []⟩

/-- The executor of the C9 witness: perform no capability call, then throw
`"boom"`. -/
def c9Exec : World → Nat → World × Option JsValue := fun w1 _ => (w1, some (.str "boom"))

/-- The world the C9 witness's executor returns: the freshly allocated
promise, still pending, untouched. -/
def c9Mid : World := ⟨[⟨PENDING, .undef, []⟩], [], [], 0, []⟩

/-! ### Toolkit lemmas about the heap, the state machine and preservation -/

theorem stateAt_eq_some {w : World} {pid : Nat} {s : String}
    (h : stateAt w pid = some s) : ∃ p, w.promises[pid]? = some p ∧ p.pstate = s := by
  unfold stateAt at h
  cases hp : w.promises[pid]? with
  | none => rw [hp] at h; simp at h
  | some p => rw [hp] at h; simp at h; exact ⟨p, rfl, h⟩

theorem getP_setPromise (w : World) (q pid : Nat) (p : PromiseObj) :
    (setPromise w q p).promises[pid]? =
      if q = pid ∧ q < w.promises.length then some p else w.promises[pid]? := by
  unfold setPromise
  simp only [List.getElem?_set]
  by_cases h : q = pid
  · subst h
    by_cases h2 : q < w.promises.length
    · simp [h2]
    · simp [h2]
      omega
  · simp [h]

theorem runHandlers_fired (w : World) (pid : Nat) :
    (runHandlers w pid).fired = w.fired := by
  unfold runHandlers
  split
  · rfl
  · split <;> rfl

theorem runHandlers_closures (w : World) (pid : Nat) :
    (runHandlers w pid).closures = w.closures := by
  unfold runHandlers
  split
  · rfl
  · split <;> rfl

theorem runHandlers_nextHid (w : World) (pid : Nat) :
    (runHandlers w pid).nextHid = w.nextHid := by
  unfold runHandlers
  split
  · rfl
  · split <;> rfl

theorem stateAt_runHandlers (w : World) (q pid : Nat) :
    stateAt (runHandlers w q) pid = stateAt w pid := by
  unfold runHandlers
  split
  · rfl
  next p hp =>
    split
    · rfl
    · unfold stateAt
      simp only [getP_setPromise]
      split
      next hc =>
        rw [hc.1] at hp
        rw [hp]
        rfl
      · rfl

theorem valueAt_runHandlers (w : World) (q pid : Nat) :
    valueAt (runHandlers w q) pid = valueAt w pid := by
  unfold runHandlers
  split
  · rfl
  next p hp =>
    split
    · rfl
    · unfold valueAt
      simp only [getP_setPromise]
      split
      next hc =>
        rw [hc.1] at hp
        rw [hp]
        rfl
      · rfl

theorem changeState_stable {w : World} {pid : Nat} {s : String}
    (hs : stateAt w pid = some s) (hne : s ≠ PENDING) (ns : String) (v : JsValue) :
    changeState w pid ns v = w := by
  obtain ⟨p, hp, hps⟩ := stateAt_eq_some hs
  unfold changeState
  simp only [hp]
  rw [if_pos]
  rw [hps]
  exact hne

theorem changeState_pending {w : World} {pid : Nat} {p : PromiseObj}
    (hp : w.promises[pid]? = some p) (hpend : p.pstate = PENDING)
    {ns : String} (hns : ns ≠ PENDING) (v : JsValue) :
    changeState w pid ns v =
      { w with promises := w.promises.set pid ⟨ns, v, []⟩,
               microtasks := w.microtasks ++ p.handlers.map (fun h => ⟨pid, h⟩) } := by
  have hlt : pid < w.promises.length := (List.getElem?_eq_some.mp hp).1
  unfold changeState
  simp only [hp]
  rw [if_neg (by simp [hpend])]
  unfold runHandlers
  rw [getP_setPromise]
  rw [if_pos ⟨rfl, hlt⟩]
  dsimp only
  rw [if_neg (by simpa using hns)]
  simp [setPromise, List.set_set]

theorem stateAt_changeState_ne (w : World) (q pid : Nat) (ns : String) (v : JsValue)
    (hne : q ≠ pid) : stateAt (changeState w q ns v) pid = stateAt w pid := by
  unfold changeState
  split
  · rfl
  next p hp =>
    split
    · rfl
    · rw [stateAt_runHandlers]
      unfold stateAt
      rw [getP_setPromise]
      simp [hne]

theorem valueAt_changeState_ne (w : World) (q pid : Nat) (ns : String) (v : JsValue)
    (hne : q ≠ pid) : valueAt (changeState w q ns v) pid = valueAt w pid := by
  unfold changeState
  split
  · rfl
  next p hp =>
    split
    · rfl
    · rw [valueAt_runHandlers]
      unfold valueAt
      rw [getP_setPromise]
      simp [hne]

theorem changeState_fired (w : World) (pid : Nat) (ns : String) (v : JsValue) :
    (changeState w pid ns v).fired = w.fired := by
  unfold changeState
  split
  · rfl
  · split
    · rfl
    · rw [runHandlers_fired]; rfl

theorem changeState_closures (w : World) (pid : Nat) (ns : String) (v : JsValue) :
    (changeState w pid ns v).closures = w.closures := by
  unfold changeState
  split
  · rfl
  · split
    · rfl
    · rw [runHandlers_closures]; rfl

theorem changeState_nextHid (w : World) (pid : Nat) (ns : String) (v : JsValue) :
    (changeState w pid ns v).nextHid = w.nextHid := by
  unfold changeState
  split
  · rfl
  · split
    · rfl
    · rw [runHandlers_nextHid]; rfl

theorem callFn_fired (w : World) (f arg : JsValue) :
    (callFn w f arg).1.fired = w.fired := by
  unfold callFn
  cases f with
  | fn g =>
      cases g with
      | cap isResolve pid => exact changeState_fired ..
      | allCb cid i =>
          simp only
          split
          · rfl
          · split
            · exact changeState_fired ..
            · rfl
      | tagFulfilled => rfl
      | tagRejected => rfl
      | constFn v => rfl
      | idFn => rfl
      | throwFn e => rfl
  | undef => rfl
  | null => rfl
  | boolean b => rfl
  | num n => rfl
  | str s => rfl
  | arr xs => rfl
  | obj fs => rfl
  | promiseRef pid => rfl

theorem pushHandler_eq {w : World} {pid : Nat} {p : PromiseObj}
    (hp : w.promises[pid]? = some p) (e : JsValue) (st : String) (rf rj : JsValue) :
    pushHandler w pid e st rf rj =
      { w with
          promises := w.promises.set pid
            { p with handlers := p.handlers ++ [⟨e, st, rf, rj, w.nextHid⟩] },
          nextHid := w.nextHid + 1 } := by
  unfold pushHandler
  rw [hp]
  dsimp only [setPromise]

theorem pushHandler_fired (w : World) (pid : Nat) (e : JsValue) (st : String)
    (rf rj : JsValue) : (pushHandler w pid e st rf rj).fired = w.fired := by
  unfold pushHandler
  split <;> rfl

theorem runHandlers_settled_eq {w : World} {pid : Nat} {p : PromiseObj}
    (hp : w.promises[pid]? = some p) (hs : p.pstate ≠ PENDING) :
    runHandlers w pid =
      { w with promises := w.promises.set pid { p with handlers := [] },
               microtasks := w.microtasks ++ p.handlers.map (fun h => ⟨pid, h⟩) } := by
  unfold runHandlers
  rw [hp]
  dsimp only
  rw [if_neg hs]
  dsimp only [setPromise]

theorem construct_none_eq {w : World} {exec : World → Nat → World × Option JsValue}
    {w2 : World}
    (h : exec { w with promises := w.promises ++ [⟨PENDING, .undef, []⟩] }
           w.promises.length = (w2, none)) :
    construct w exec = (w2, w.promises.length) := by
  unfold construct
  dsimp only
  rw [h]

theorem mthen_fired (w : World) (s : Nat) (f g : JsValue) :
    (mthen w s f g).1.fired = w.fired := by
  unfold mthen construct
  dsimp only
  rw [runHandlers_fired, pushHandler_fired, pushHandler_fired]

theorem runTask_fired (w : World) (t : Task) :
    (runTask w t).fired = w.fired ++ [t.h.hid] := by
  unfold runTask
  dsimp only
  split
  · rfl
  next p hp =>
    split
    · rfl
    · split
      · split
        · rw [callFn_fired]
        · rw [callFn_fired]
      · split
        next w' result heq =>
          have hf : w'.fired = w.fired ++ [t.h.hid] := by
            have := callFn_fired { w with fired := w.fired ++ [t.h.hid] }
              t.h.executor p.pvalue
            rw [heq] at this
            exact this
          split
          · split
            · rw [mthen_fired]
              exact hf
            · exact hf
          · rw [callFn_fired]
            exact hf
        next w' e heq =>
          have hf : w'.fired = w.fired ++ [t.h.hid] := by
            have := callFn_fired { w with fired := w.fired ++ [t.h.hid] }
              t.h.executor p.pvalue
            rw [heq] at this
            exact this
          rw [callFn_fired]
          exact hf

theorem stepQueue_fired {w : World} {t : Task} {ts : List Task}
    (h : w.microtasks = t :: ts) :
    (stepQueue w).fired = w.fired ++ [t.h.hid] := by
  unfold stepQueue
  rw [h]
  dsimp only
  rw [runTask_fired]

theorem push_push_run_settled {w : World} {spid : Nat} {q : PromiseObj}
    (hp : w.promises[spid]? = some q) (hqs : q.pstate ≠ PENDING) (hqe : q.handlers = [])
    (f g rT rF rT2 rF2 : JsValue) :
    runHandlers (pushHandler (pushHandler w spid f FULFILLED rT rF)
        spid g REJECTED rT2 rF2) spid =
      { w with promises := w.promises.set spid { q with handlers := [] },
               microtasks := w.microtasks ++
                 [⟨spid, ⟨f, FULFILLED, rT, rF, w.nextHid⟩⟩,
                  ⟨spid, ⟨g, REJECTED, rT2, rF2, w.nextHid + 1⟩⟩],
               nextHid := w.nextHid + 2 } := by
  have hlt : spid < w.promises.length := (List.getElem?_eq_some.mp hp).1
  rw [pushHandler_eq hp]
  have h2 : (({ w with
        promises := w.promises.set spid
          { q with handlers := q.handlers ++ [⟨f, FULFILLED, rT, rF, w.nextHid⟩] },
        nextHid := w.nextHid + 1 } : World)).promises[spid]? =
      some { q with handlers := q.handlers ++ [⟨f, FULFILLED, rT, rF, w.nextHid⟩] } := by
    dsimp only
    exact List.getElem?_set_self (by simpa using hlt)
  rw [pushHandler_eq h2]
  have h3 : (({ w with
        promises := (w.promises.set spid
            { q with handlers := q.handlers ++ [⟨f, FULFILLED, rT, rF, w.nextHid⟩] }).set spid
          { q with handlers :=
              (q.handlers ++ [⟨f, FULFILLED, rT, rF, w.nextHid⟩]) ++
                [⟨g, REJECTED, rT2, rF2, w.nextHid + 1⟩] },
        nextHid := w.nextHid + 1 + 1 } : World)).promises[spid]? =
      some { q with handlers :=
          (q.handlers ++ [⟨f, FULFILLED, rT, rF, w.nextHid⟩]) ++
            [⟨g, REJECTED, rT2, rF2, w.nextHid + 1⟩] } := by
    dsimp only
    exact List.getElem?_set_self (by simpa using hlt)
  rw [runHandlers_settled_eq h3 (by simpa using hqs)]
  simp [List.set_set, hqe]

theorem mthen_settled_char {w : World} {spid : Nat} {q : PromiseObj}
    (hp : w.promises[spid]? = some q) (hqs : q.pstate ≠ PENDING) (hqe : q.handlers = [])
    (f g : JsValue) :
    (mthen w spid f g).1.microtasks =
      w.microtasks ++
        [⟨spid, ⟨f, FULFILLED, .fn (.cap true w.promises.length),
                 .fn (.cap false w.promises.length), w.nextHid⟩⟩,
         ⟨spid, ⟨g, REJECTED, .fn (.cap true w.promises.length),
                 .fn (.cap false w.promises.length), w.nextHid + 1⟩⟩] ∧
    (mthen w spid f g).1.fired = w.fired := by
  have hlt : spid < w.promises.length := (List.getElem?_eq_some.mp hp).1
  have h1 : (({ w with promises :=
        w.promises ++ [(⟨PENDING, .undef, []⟩ : PromiseObj)] } : World)).promises[spid]? =
      some q := by
    dsimp only
    rw [List.getElem?_append_left hlt]
    exact hp
  constructor
  · have e1 : (mthen w spid f g).1 =
        runHandlers (pushHandler (pushHandler
            { w with promises := w.promises ++ [(⟨PENDING, .undef, []⟩ : PromiseObj)] }
            spid f FULFILLED (.fn (.cap true w.promises.length))
              (.fn (.cap false w.promises.length)))
          spid g REJECTED (.fn (.cap true w.promises.length))
            (.fn (.cap false w.promises.length))) spid := rfl
    rw [e1, push_push_run_settled h1 hqs hqe]
  · exact mthen_fired ..

/-! ### Stepping lemmas for concrete scenario runs -/

theorem runQueue_cons {w : World} {t : Task} {ts : List Task} (fuel : Nat)
    (h : w.microtasks = t :: ts) :
    runQueue (fuel + 1) w = runQueue fuel (runTask { w with microtasks := ts } t) := by
  conv_lhs => rw [runQueue, h]

theorem runTask_skip {w : World} {pid : Nat} {p : PromiseObj} {h : Handler}
    (hp : w.promises[pid]? = some p) (hne : p.pstate ≠ h.state) :
    runTask w ⟨pid, h⟩ = { w with fired := w.fired ++ [h.hid] } := by
  unfold runTask
  dsimp only
  rw [hp]
  dsimp only
  rw [if_pos hne]

theorem runTask_const_promise {w : World} {pid : Nat} {p : PromiseObj} {h : Handler}
    {rid : Nat} (hp : w.promises[pid]? = some p) (hmatch : p.pstate = h.state)
    (hex : h.executor = .fn (.constFn (.promiseRef rid))) :
    runTask w ⟨pid, h⟩ =
      (mthen { w with fired := w.fired ++ [h.hid] } rid h.resolveFn h.rejectFn).1 := by
  unfold runTask
  dsimp only
  rw [hp]
  dsimp only
  rw [if_neg (by simp [hmatch])]
  rw [hex]
  rw [if_neg (by simp [isCallable])]
  have e1 : callFn { w with fired := w.fired ++ [h.hid] }
      (.fn (.constFn (.promiseRef rid))) p.pvalue
      = ({ w with fired := w.fired ++ [h.hid] }, .normal (.promiseRef rid)) := rfl
  rw [e1]
  dsimp only
  rw [if_pos (show isPromise (.promiseRef rid) = true from rfl)]

theorem runTask_cap_executor {w : World} {pid : Nat} {p : PromiseObj} {h : Handler}
    {b : Bool} {q : Nat} (hp : w.promises[pid]? = some p) (hmatch : p.pstate = h.state)
    (hex : h.executor = .fn (.cap b q)) :
    runTask w ⟨pid, h⟩ =
      (callFn (changeState { w with fired := w.fired ++ [h.hid] } q
          (if b then FULFILLED else REJECTED) p.pvalue) h.resolveFn .undef).1 := by
  unfold runTask
  dsimp only
  rw [hp]
  dsimp only
  rw [if_neg (by simp [hmatch])]
  rw [hex]
  rw [if_neg (by simp [isCallable])]
  have e1 : callFn { w with fired := w.fired ++ [h.hid] } (.fn (.cap b q)) p.pvalue
      = (changeState { w with fired := w.fired ++ [h.hid] } q
          (if b then FULFILLED else REJECTED) p.pvalue, .normal .undef) := rfl
  rw [e1]
  dsimp only
  rw [if_neg (show ¬ isPromise JsValue.undef = true by simp [isPromise])]

theorem runTask_noncallable_fulfilled {w : World} {pid : Nat} {p : PromiseObj} {h : Handler}
    (hp : w.promises[pid]? = some p) (hnc : isCallable h.executor = false)
    (hful : p.pstate = FULFILLED) (hst : h.state = FULFILLED) :
    runTask w ⟨pid, h⟩ =
      (callFn { w with fired := w.fired ++ [h.hid] } h.resolveFn p.pvalue).1 := by
  unfold runTask
  dsimp only
  rw [hp]
  dsimp only
  rw [if_neg (by rw [hful, hst]; simp)]
  rw [if_pos (by simp [hnc])]
  rw [if_pos hful]

theorem runTask_noncallable_rejected {w : World} {pid : Nat} {p : PromiseObj} {h : Handler}
    (hp : w.promises[pid]? = some p) (hnc : isCallable h.executor = false)
    (hrej : p.pstate = REJECTED) (hst : h.state = REJECTED) :
    runTask w ⟨pid, h⟩ =
      (callFn { w with fired := w.fired ++ [h.hid] } h.rejectFn p.pvalue).1 := by
  unfold runTask
  dsimp only
  rw [hp]
  dsimp only
  rw [if_neg (by rw [hrej, hst]; simp)]
  rw [if_pos (by simp [hnc])]
  rw [if_neg (by rw [hrej]; decide)]

theorem mthen_settled_world_eq {w : World} {spid : Nat} {q : PromiseObj}
    (hp : w.promises[spid]? = some q) (hqs : q.pstate ≠ PENDING) (hqe : q.handlers = [])
    (f g : JsValue) :
    (mthen w spid f g).1 =
      { w with promises := (w.promises ++ [(⟨PENDING, .undef, []⟩ : PromiseObj)]).set spid q,
               microtasks := w.microtasks ++
                 ([⟨spid, ⟨f, FULFILLED, .fn (.cap true w.promises.length),
                           .fn (.cap false w.promises.length), w.nextHid⟩⟩,
                   ⟨spid, ⟨g, REJECTED, .fn (.cap true w.promises.length),
                           .fn (.cap false w.promises.length), w.nextHid + 1⟩⟩] : List Task),
               nextHid := w.nextHid + 2 } := by
  have hlt : spid < w.promises.length := (List.getElem?_eq_some.mp hp).1
  have h1 : (({ w with promises :=
        w.promises ++ [(⟨PENDING, .undef, []⟩ : PromiseObj)] } : World)).promises[spid]? =
      some q := by
    dsimp only
    rw [List.getElem?_append_left hlt]
    exact hp
  have e1 : (mthen w spid f g).1 =
      runHandlers (pushHandler (pushHandler
          { w with promises := w.promises ++ [(⟨PENDING, .undef, []⟩ : PromiseObj)] }
          spid f FULFILLED (.fn (.cap true w.promises.length))
            (.fn (.cap false w.promises.length)))
        spid g REJECTED (.fn (.cap true w.promises.length))
          (.fn (.cap false w.promises.length))) spid := rfl
  rw [e1, push_push_run_settled h1 hqs hqe]
  have e2 : ({ q with handlers := [] } : PromiseObj) = q := by
    cases q with
    | mk a b c =>
        simp only at hqe
        rw [hqe]
  rw [e2]

/-! ### C1 — settlement is one-shot -/

/-- C1: once a Future has transitioned out of `Pending`, any further call
to either settlement capability (the bound `_resolve` or `_reject`, with
any value) routes through `_changeState`, which is then a no-op: the call
returns leaving the whole world — in particular the Future's state and its
settled value — unchanged. -/
theorem settled_state_is_final (w : World) (pid : Nat) (s : String) (b : Bool)
    (v : JsValue) (hs : stateAt w pid = some s) (hne : s ≠ PENDING) :
    callFn w (.fn (.cap b pid)) v = (w, .normal .undef) ∧
    stateAt (callFn w (.fn (.cap b pid)) v).1 pid = some s ∧
    valueAt (callFn w (.fn (.cap b pid)) v).1 pid = valueAt w pid := by
  have hcs : changeState w pid (if b then FULFILLED else REJECTED) v = w :=
    changeState_stable hs hne _ v
  refine ⟨?_, ?_, ?_⟩
  · show (changeState w pid (if b then FULFILLED else REJECTED) v, CallResult.normal .undef)
        = (w, .normal .undef)
    rw [hcs]
  · show stateAt (changeState w pid (if b then FULFILLED else REJECTED) v) pid = some s
    rw [hcs]
    exact hs
  · show valueAt (changeState w pid (if b then FULFILLED else REJECTED) v) pid = valueAt w pid
    rw [hcs]

/-- Concrete instance of C1: rejecting an already-fulfilled promise is a
no-op. -/
theorem settled_state_is_final_witness :
    callFn (singleSettled FULFILLED (.num 1)) (.fn (.cap false 0)) (.str "late")
        = (singleSettled FULFILLED (.num 1), .normal .undef) ∧
    stateAt (callFn (singleSettled FULFILLED (.num 1)) (.fn (.cap false 0)) (.str "late")).1 0
        = some FULFILLED ∧
    valueAt (callFn (singleSettled FULFILLED (.num 1)) (.fn (.cap false 0)) (.str "late")).1 0
        = valueAt (singleSettled FULFILLED (.num 1)) 0 :=
  settled_state_is_final (singleSettled FULFILLED (.num 1)) 0 FULFILLED false
    (.str "late") rfl (by decide)

/-! ### C2 — handlers run exactly once, in FIFO order, via the adapter -/

/-- C2: every handler registration is executed exactly once after
settlement, in registration (FIFO) order, always via the scheduling
adapter, never synchronously.  Formally: (i) settling a pending promise
appends every queued registration, in queue (= registration) order, to the
adapter's FIFO queue; (ii) it clears the promise's handler queue, so no
registration can ever be scheduled a second time; (iii) it runs no handler
callback synchronously (the ghost fired log is untouched); (iv) a `then`
registration on an already-settled promise likewise appends its two fresh
registrations, in registration order, to the adapter's queue and runs
nothing synchronously; (v) the adapter consumes its queue from the front,
and popping a task runs that scheduled callback exactly once (its ghost id
is appended to the fired log exactly once). -/
theorem handlers_run_exactly_once_fifo_async
    (w : World) (pid : Nat) (p : PromiseObj) (ns : String) (v : JsValue)
    (hp : w.promises[pid]? = some p) (hpend : p.pstate = PENDING)
    (hns : ns ≠ PENDING) :
    (changeState w pid ns v).microtasks
        = w.microtasks ++ p.handlers.map (fun h => ⟨pid, h⟩) ∧
    handlersAt (changeState w pid ns v) pid = some [] ∧
    (changeState w pid ns v).fired = w.fired ∧
    (∀ (w2 : World) (spid : Nat) (q : PromiseObj) (f g : JsValue),
        w2.promises[spid]? = some q → q.pstate ≠ PENDING → q.handlers = [] →
        (mthen w2 spid f g).1.microtasks =
          w2.microtasks ++
            [⟨spid, ⟨f, FULFILLED, .fn (.cap true w2.promises.length),
                     .fn (.cap false w2.promises.length), w2.nextHid⟩⟩,
             ⟨spid, ⟨g, REJECTED, .fn (.cap true w2.promises.length),
                     .fn (.cap false w2.promises.length), w2.nextHid + 1⟩⟩] ∧
          (mthen w2 spid f g).1.fired = w2.fired) ∧
    (∀ (w3 : World) (t : Task) (ts : List Task),
        w3.microtasks = t :: ts → (stepQueue w3).fired = w3.fired ++ [t.h.hid]) := by
  have hlt : pid < w.promises.length := (List.getElem?_eq_some.mp hp).1
  have hchar := changeState_pending hp hpend hns v
  refine ⟨?_, ?_, changeState_fired .., ?_, ?_⟩
  · rw [hchar]
  · rw [hchar]
    unfold handlersAt
    dsimp only
    rw [List.getElem?_set_self hlt]
    rfl
  · intro w2 spid q f g hq hqs hqe
    exact mthen_settled_char hq hqs hqe f g
  · intro w3 t ts h
    exact stepQueue_fired h

/-- Concrete instance of C2: fulfilling a pending promise carrying two
queued registrations schedules both, in order, clears the queue, and fires
nothing synchronously. -/
theorem handlers_run_exactly_once_fifo_async_witness :
    (changeState c2World 0 FULFILLED (.num 3)).microtasks
        = c2World.microtasks ++ [c2h0, c2h1].map (fun h => ⟨0, h⟩) ∧
    handlersAt (changeState c2World 0 FULFILLED (.num 3)) 0 = some [] ∧
    (changeState c2World 0 FULFILLED (.num 3)).fired = c2World.fired ∧
    (∀ (w2 : World) (spid : Nat) (q : PromiseObj) (f g : JsValue),
        w2.promises[spid]? = some q → q.pstate ≠ PENDING → q.handlers = [] →
        (mthen w2 spid f g).1.microtasks =
          w2.microtasks ++
            [⟨spid, ⟨f, FULFILLED, .fn (.cap true w2.promises.length),
                     .fn (.cap false w2.promises.length), w2.nextHid⟩⟩,
             ⟨spid, ⟨g, REJECTED, .fn (.cap true w2.promises.length),
                     .fn (.cap false w2.promises.length), w2.nextHid + 1⟩⟩] ∧
          (mthen w2 spid f g).1.fired = w2.fired) ∧
    (∀ (w3 : World) (t : Task) (ts : List Task),
        w3.microtasks = t :: ts → (stepQueue w3).fired = w3.fired ++ [t.h.hid]) :=
  handlers_run_exactly_once_fifo_async c2World 0 ⟨PENDING, .undef, [c2h0, c2h1]⟩
    FULFILLED (.num 3) rfl rfl (by decide)

/-! ### C3 — what allSettled actually fulfills with -/

/-- C3 evaluation at the claim's own example: `allSettled([Pok, Pfail])`
with `Pok` fulfilled with `1` and `Pfail` rejected with `"x"` fulfills with
a sequence whose second descriptor is `{status: "fulfilled", reason: "x"}`
— not `{status: "rejected", reason: "x"}` as the claim states, because the
source's rejection continuation (lines 249-252) writes `status: FULFILLED`
next to the `reason` field. -/
theorem allSettled_mislabels_rejection :
    stateAt allSettledDemo 4 = some FULFILLED ∧
    valueAt allSettledDemo 4 =
      some (.arr [.obj [("status", .str FULFILLED), ("value", .num 1)],
                  .obj [("status", .str FULFILLED), ("reason", .str "x")]]) :=
  ⟨rfl, rfl⟩

/-! ### C4 — what race actually does -/

/-- C4 evaluation: `MyPromise.race` invokes the class constructor without
`new` (source line 264), so it throws a `TypeError` for every input list —
it never returns a Future at all, let alone one adopting the first settled
outcome. -/
theorem race_always_throws (w : World) (proms : List JsValue) :
    race w proms =
      .error (.str "TypeError: Class constructor MyPromise cannot be invoked without new") :=
  rfl

/-- Supporting evidence that the claim describes the intent: with the
`new` restored as spec section 9 directs, the first input to settle decides
the outcome (`"fast"`), and a later settlement of the other input
(`"slow"`) is discarded without error. -/
theorem raceConstructed_first_settler_wins :
    stateAt raceDemo 2 = some FULFILLED ∧ valueAt raceDemo 2 = some (.str "fast") ∧
    stateAt raceDemo 0 = some FULFILLED ∧ valueAt raceDemo 0 = some (.str "slow") :=
  ⟨rfl, rfl, rfl, rfl⟩

/-! ### C5 — the scheduling adapter's host branches -/

/-- C5 evaluation of `runMicroTask`'s branch structure: in the
browser-style branch (no Node-style `process.nextTick`, `MutationObserver`
available) the callback is handed to no facility at all — the branch body
is empty (source lines 14-15) — refuting the claim that every branch hands
the callback to some host deferral facility.  The other two branches do
hand it over exactly once. -/
theorem runMicroTask_browser_branch_drops_callback :
    runMicroTaskDispatch ⟨false, false, true⟩ = none ∧
    runMicroTaskDispatch ⟨true, true, true⟩ = some .nextTick ∧
    runMicroTaskDispatch ⟨false, false, false⟩ = some .timeoutZero :=
  ⟨rfl, rfl, rfl⟩

/-! ### C9 — executor-thrown errors reject the Future -/

/-- C9: when the executor throws `e` during construction, the constructor
behaves exactly as if the executor had ended by calling the reject
capability with `e` (first conjunct); in particular, when the executor had
not already settled the Future, `e` becomes the Future's rejection
reason. -/
theorem executor_throw_rejects (w : World)
    (exec : World → Nat → World × Option JsValue) (w2 : World) (e : JsValue)
    (hrun : exec { w with promises := w.promises ++ [⟨PENDING, .undef, []⟩] }
              w.promises.length = (w2, some e))
    (hpend : stateAt w2 w.promises.length = some PENDING) :
    (construct w exec).1 = (callFn w2 (.fn (.cap false w.promises.length)) e).1 ∧
    stateAt (construct w exec).1 w.promises.length = some REJECTED ∧
    valueAt (construct w exec).1 w.promises.length = some e := by
  have h1 : construct w exec =
      ((callFn w2 (.fn (.cap false w.promises.length)) e).1, w.promises.length) := by
    unfold construct
    dsimp only
    rw [hrun]
  obtain ⟨p, hp, hps⟩ := stateAt_eq_some hpend
  have hlt : w.promises.length < w2.promises.length := (List.getElem?_eq_some.mp hp).1
  have h2 : (callFn w2 (.fn (.cap false w.promises.length)) e).1 =
      changeState w2 w.promises.length REJECTED e := rfl
  refine ⟨by rw [h1], ?_, ?_⟩
  · rw [h1]
    dsimp only
    rw [h2, changeState_pending hp hps (by decide) e]
    unfold stateAt
    dsimp only
    rw [List.getElem?_set_self hlt]
    rfl
  · rw [h1]
    dsimp only
    rw [h2, changeState_pending hp hps (by decide) e]
    unfold valueAt
    dsimp only
    rw [List.getElem?_set_self hlt]
    rfl

/-- Concrete instance of C9: an executor that throws `"boom"` without
settling yields a promise rejected with `"boom"`. -/
theorem executor_throw_rejects_witness :
    (construct World.empty c9Exec).1 = (callFn c9Mid (.fn (.cap false 0)) (.str "boom")).1 ∧
    stateAt (construct World.empty c9Exec).1 0 = some REJECTED ∧
    valueAt (construct World.empty c9Exec).1 0 = some (.str "boom") :=
  executor_throw_rejects World.empty c9Exec c9Mid (.str "boom") rfl rfl

/-! ### C7 — missing continuations pass the outcome through -/

/-- C7: when a handler's scheduled callback fires on a matching state and
the registration carries no function continuation, the dispatch is exactly
a forward of the settled payload to the downstream capability matching the
state: the fulfillment value goes to the registration's `resolve`
capability, the rejection reason to its `reject` capability
(source lines 86-92). -/
theorem missing_continuation_pass_through
    (w : World) (pid : Nat) (p : PromiseObj) (h : Handler)
    (hp : w.promises[pid]? = some p) (hnc : isCallable h.executor = false)
    (hmatch : p.pstate = h.state) :
    (p.pstate = FULFILLED →
        runTask w ⟨pid, h⟩ =
          (callFn { w with fired := w.fired ++ [h.hid] } h.resolveFn p.pvalue).1) ∧
    (p.pstate = REJECTED →
        runTask w ⟨pid, h⟩ =
          (callFn { w with fired := w.fired ++ [h.hid] } h.rejectFn p.pvalue).1) := by
  unfold runTask
  dsimp only
  rw [hp]
  dsimp only
  rw [if_neg (by simp [hmatch])]
  rw [if_pos (by simp [hnc])]
  constructor
  · intro hf
    rw [if_pos hf]
  · intro hr
    rw [if_neg (by rw [hr]; decide)]

/-- Concrete instance of C7: a registration whose continuation slot holds
the non-function `42` forwards the fulfilled value to its `resolve`
capability. -/
theorem missing_continuation_pass_through_witness :
    (FULFILLED = FULFILLED →
        runTask (singleSettled FULFILLED (.num 7)) ⟨0, ⟨.num 42, FULFILLED, .fn .idFn, .undef, 5⟩⟩ =
          (callFn { singleSettled FULFILLED (.num 7) with
              fired := (singleSettled FULFILLED (.num 7)).fired ++ [5] }
            (.fn .idFn) (.num 7)).1) ∧
    (FULFILLED = REJECTED →
        runTask (singleSettled FULFILLED (.num 7)) ⟨0, ⟨.num 42, FULFILLED, .fn .idFn, .undef, 5⟩⟩ =
          (callFn { singleSettled FULFILLED (.num 7) with
              fired := (singleSettled FULFILLED (.num 7)).fired ++ [5] }
            (.undef) (.num 7)).1) :=
  missing_continuation_pass_through (singleSettled FULFILLED (.num 7)) 0
    ⟨FULFILLED, .num 7, []⟩ ⟨.num 42, FULFILLED, .fn .idFn, .undef, 5⟩ rfl rfl rfl

/-! ### C8 — a continuation returning a Future is adopted, not wrapped -/

/-- C8: when a supplied continuation returns a value passing the
`isPromise` duck test (here a `MyPromise` reference), the downstream
promise adopts that inner Future's eventual outcome via
`result.then(resolve, reject)` (source lines 93-99): with source promise
`0` fulfilled with `u` and inner promise `1`, the chained promise `2`
fulfills with `v` when the inner fulfilled with `v` (flattening — not
fulfillment with the Future-like value itself), and rejects with `rv` when
the inner rejected with `rv`. -/
theorem chained_future_outcome_adopted (u v rv : JsValue) :
    (stateAt (runQueue 4 (mthen (⟨[⟨FULFILLED, u, []⟩, ⟨FULFILLED, v, []⟩], [], [], 0, []⟩ : World) 0 (.fn (.constFn (.promiseRef 1))) .undef).1) 2 = some FULFILLED ∧
     valueAt (runQueue 4 (mthen (⟨[⟨FULFILLED, u, []⟩, ⟨FULFILLED, v, []⟩], [], [], 0, []⟩ : World) 0 (.fn (.constFn (.promiseRef 1))) .undef).1) 2 = some v) ∧
    (stateAt (runQueue 4 (mthen (⟨[⟨FULFILLED, u, []⟩, ⟨REJECTED, rv, []⟩], [], [], 0, []⟩ : World) 0 (.fn (.constFn (.promiseRef 1))) .undef).1) 2 = some REJECTED ∧
     valueAt (runQueue 4 (mthen (⟨[⟨FULFILLED, u, []⟩, ⟨REJECTED, rv, []⟩], [], [], 0, []⟩ : World) 0 (.fn (.constFn (.promiseRef 1))) .undef).1) 2 = some rv) := by
  constructor
  · have s1 : (mthen (⟨[⟨FULFILLED, u, []⟩, ⟨FULFILLED, v, []⟩], [], [], 0, []⟩ : World) 0 (.fn (.constFn (.promiseRef 1))) .undef).1 = (⟨[⟨FULFILLED, u, []⟩, ⟨FULFILLED, v, []⟩, ⟨PENDING, .undef, []⟩], [⟨0, ⟨(.fn (.constFn (.promiseRef 1))), FULFILLED, .fn (.cap true 2), .fn (.cap false 2), 0⟩⟩, ⟨0, ⟨.undef, REJECTED, .fn (.cap true 2), .fn (.cap false 2), 1⟩⟩], [], 2, []⟩ : World) := by
      rw [mthen_settled_world_eq (q := (⟨FULFILLED, u, []⟩ : PromiseObj)) rfl
        (show (FULFILLED : String) ≠ PENDING by decide) rfl]
      rfl
    have s2a : runTask (⟨[⟨FULFILLED, u, []⟩, ⟨FULFILLED, v, []⟩, ⟨PENDING, .undef, []⟩], [⟨0, ⟨.undef, REJECTED, .fn (.cap true 2), .fn (.cap false 2), 1⟩⟩], [], 2, []⟩ : World) ⟨0, ⟨(.fn (.constFn (.promiseRef 1))), FULFILLED, .fn (.cap true 2), .fn (.cap false 2), 0⟩⟩ = (mthen (⟨[⟨FULFILLED, u, []⟩, ⟨FULFILLED, v, []⟩, ⟨PENDING, .undef, []⟩], [⟨0, ⟨.undef, REJECTED, .fn (.cap true 2), .fn (.cap false 2), 1⟩⟩], [], 2, [0]⟩ : World) 1 (.fn (.cap true 2)) (.fn (.cap false 2))).1 := by
      rw [runTask_const_promise (p := (⟨FULFILLED, u, []⟩ : PromiseObj)) rfl rfl rfl]
      rfl
    have s2b : (mthen (⟨[⟨FULFILLED, u, []⟩, ⟨FULFILLED, v, []⟩, ⟨PENDING, .undef, []⟩], [⟨0, ⟨.undef, REJECTED, .fn (.cap true 2), .fn (.cap false 2), 1⟩⟩], [], 2, [0]⟩ : World) 1 (.fn (.cap true 2)) (.fn (.cap false 2))).1 = (⟨[⟨FULFILLED, u, []⟩, ⟨FULFILLED, v, []⟩, ⟨PENDING, .undef, []⟩, ⟨PENDING, .undef, []⟩], [⟨0, ⟨.undef, REJECTED, .fn (.cap true 2), .fn (.cap false 2), 1⟩⟩, ⟨1, ⟨.fn (.cap true 2), FULFILLED, .fn (.cap true 3), .fn (.cap false 3), 2⟩⟩, ⟨1, ⟨.fn (.cap false 2), REJECTED, .fn (.cap true 3), .fn (.cap false 3), 3⟩⟩], [], 4, [0]⟩ : World) := by
      rw [mthen_settled_world_eq (q := (⟨FULFILLED, v, []⟩ : PromiseObj)) rfl
        (show (FULFILLED : String) ≠ PENDING by decide) rfl]
      rfl
    have s3 : runTask (⟨[⟨FULFILLED, u, []⟩, ⟨FULFILLED, v, []⟩, ⟨PENDING, .undef, []⟩, ⟨PENDING, .undef, []⟩], [⟨1, ⟨.fn (.cap true 2), FULFILLED, .fn (.cap true 3), .fn (.cap false 3), 2⟩⟩, ⟨1, ⟨.fn (.cap false 2), REJECTED, .fn (.cap true 3), .fn (.cap false 3), 3⟩⟩], [], 4, [0]⟩ : World) ⟨0, ⟨.undef, REJECTED, .fn (.cap true 2), .fn (.cap false 2), 1⟩⟩ = (⟨[⟨FULFILLED, u, []⟩, ⟨FULFILLED, v, []⟩, ⟨PENDING, .undef, []⟩, ⟨PENDING, .undef, []⟩], [⟨1, ⟨.fn (.cap true 2), FULFILLED, .fn (.cap true 3), .fn (.cap false 3), 2⟩⟩, ⟨1, ⟨.fn (.cap false 2), REJECTED, .fn (.cap true 3), .fn (.cap false 3), 3⟩⟩], [], 4, [0, 1]⟩ : World) := by
      rw [runTask_skip (p := (⟨FULFILLED, u, []⟩ : PromiseObj)) rfl
        (show (FULFILLED : String) ≠ REJECTED by decide)]
      rfl
    have s4a : runTask (⟨[⟨FULFILLED, u, []⟩, ⟨FULFILLED, v, []⟩, ⟨PENDING, .undef, []⟩, ⟨PENDING, .undef, []⟩], [⟨1, ⟨.fn (.cap false 2), REJECTED, .fn (.cap true 3), .fn (.cap false 3), 3⟩⟩], [], 4, [0, 1]⟩ : World) ⟨1, ⟨.fn (.cap true 2), FULFILLED, .fn (.cap true 3), .fn (.cap false 3), 2⟩⟩
        = (callFn (changeState (⟨[⟨FULFILLED, u, []⟩, ⟨FULFILLED, v, []⟩, ⟨PENDING, .undef, []⟩, ⟨PENDING, .undef, []⟩], [⟨1, ⟨.fn (.cap false 2), REJECTED, .fn (.cap true 3), .fn (.cap false 3), 3⟩⟩], [], 4, [0, 1, 2]⟩ : World) 2 (if true then FULFILLED else REJECTED) v)
            (.fn (.cap true 3)) .undef).1 := by
      rw [runTask_cap_executor (p := (⟨FULFILLED, v, []⟩ : PromiseObj)) rfl rfl rfl]
      rfl
    have s4b : changeState (⟨[⟨FULFILLED, u, []⟩, ⟨FULFILLED, v, []⟩, ⟨PENDING, .undef, []⟩, ⟨PENDING, .undef, []⟩], [⟨1, ⟨.fn (.cap false 2), REJECTED, .fn (.cap true 3), .fn (.cap false 3), 3⟩⟩], [], 4, [0, 1, 2]⟩ : World) 2 (if true then FULFILLED else REJECTED) v = (⟨[⟨FULFILLED, u, []⟩, ⟨FULFILLED, v, []⟩, ⟨FULFILLED, v, []⟩, ⟨PENDING, .undef, []⟩], [⟨1, ⟨.fn (.cap false 2), REJECTED, .fn (.cap true 3), .fn (.cap false 3), 3⟩⟩], [], 4, [0, 1, 2]⟩ : World) := by
      rw [changeState_pending (p := (⟨PENDING, .undef, []⟩ : PromiseObj)) rfl rfl (by decide) v]
      rfl
    have s4c : callFn (⟨[⟨FULFILLED, u, []⟩, ⟨FULFILLED, v, []⟩, ⟨FULFILLED, v, []⟩, ⟨PENDING, .undef, []⟩], [⟨1, ⟨.fn (.cap false 2), REJECTED, .fn (.cap true 3), .fn (.cap false 3), 3⟩⟩], [], 4, [0, 1, 2]⟩ : World) (.fn (.cap true 3)) .undef
        = (changeState (⟨[⟨FULFILLED, u, []⟩, ⟨FULFILLED, v, []⟩, ⟨FULFILLED, v, []⟩, ⟨PENDING, .undef, []⟩], [⟨1, ⟨.fn (.cap false 2), REJECTED, .fn (.cap true 3), .fn (.cap false 3), 3⟩⟩], [], 4, [0, 1, 2]⟩ : World) 3 FULFILLED .undef, .normal .undef) := rfl
    have s4d : changeState (⟨[⟨FULFILLED, u, []⟩, ⟨FULFILLED, v, []⟩, ⟨FULFILLED, v, []⟩, ⟨PENDING, .undef, []⟩], [⟨1, ⟨.fn (.cap false 2), REJECTED, .fn (.cap true 3), .fn (.cap false 3), 3⟩⟩], [], 4, [0, 1, 2]⟩ : World) 3 FULFILLED .undef = (⟨[⟨FULFILLED, u, []⟩, ⟨FULFILLED, v, []⟩, ⟨FULFILLED, v, []⟩, ⟨FULFILLED, .undef, []⟩], [⟨1, ⟨.fn (.cap false 2), REJECTED, .fn (.cap true 3), .fn (.cap false 3), 3⟩⟩], [], 4, [0, 1, 2]⟩ : World) := by
      rw [changeState_pending (p := (⟨PENDING, .undef, []⟩ : PromiseObj)) rfl rfl (by decide) .undef]
      rfl
    have s5 : runTask (⟨[⟨FULFILLED, u, []⟩, ⟨FULFILLED, v, []⟩, ⟨FULFILLED, v, []⟩, ⟨FULFILLED, .undef, []⟩], [], [], 4, [0, 1, 2]⟩ : World) ⟨1, ⟨.fn (.cap false 2), REJECTED, .fn (.cap true 3), .fn (.cap false 3), 3⟩⟩ = (⟨[⟨FULFILLED, u, []⟩, ⟨FULFILLED, v, []⟩, ⟨FULFILLED, v, []⟩, ⟨FULFILLED, .undef, []⟩], [], [], 4, [0, 1, 2, 3]⟩ : World) := by
      rw [runTask_skip (p := (⟨FULFILLED, v, []⟩ : PromiseObj)) rfl
        (show (FULFILLED : String) ≠ REJECTED by decide)]
      rfl
    rw [s1, runQueue_cons 3 rfl, s2a, s2b, runQueue_cons 2 rfl, s3, runQueue_cons 1 rfl,
      s4a, s4b, s4c, s4d, runQueue_cons 0 rfl, s5]
    exact ⟨rfl, rfl⟩
  · have s1 : (mthen (⟨[⟨FULFILLED, u, []⟩, ⟨REJECTED, rv, []⟩], [], [], 0, []⟩ : World) 0 (.fn (.constFn (.promiseRef 1))) .undef).1 = (⟨[⟨FULFILLED, u, []⟩, ⟨REJECTED, rv, []⟩, ⟨PENDING, .undef, []⟩], [⟨0, ⟨(.fn (.constFn (.promiseRef 1))), FULFILLED, .fn (.cap true 2), .fn (.cap false 2), 0⟩⟩, ⟨0, ⟨.undef, REJECTED, .fn (.cap true 2), .fn (.cap false 2), 1⟩⟩], [], 2, []⟩ : World) := by
      rw [mthen_settled_world_eq (q := (⟨FULFILLED, u, []⟩ : PromiseObj)) rfl
        (show (FULFILLED : String) ≠ PENDING by decide) rfl]
      rfl
    have s2a : runTask (⟨[⟨FULFILLED, u, []⟩, ⟨REJECTED, rv, []⟩, ⟨PENDING, .undef, []⟩], [⟨0, ⟨.undef, REJECTED, .fn (.cap true 2), .fn (.cap false 2), 1⟩⟩], [], 2, []⟩ : World) ⟨0, ⟨(.fn (.constFn (.promiseRef 1))), FULFILLED, .fn (.cap true 2), .fn (.cap false 2), 0⟩⟩ = (mthen (⟨[⟨FULFILLED, u, []⟩, ⟨REJECTED, rv, []⟩, ⟨PENDING, .undef, []⟩], [⟨0, ⟨.undef, REJECTED, .fn (.cap true 2), .fn (.cap false 2), 1⟩⟩], [], 2, [0]⟩ : World) 1 (.fn (.cap true 2)) (.fn (.cap false 2))).1 := by
      rw [runTask_const_promise (p := (⟨FULFILLED, u, []⟩ : PromiseObj)) rfl rfl rfl]
      rfl
    have s2b : (mthen (⟨[⟨FULFILLED, u, []⟩, ⟨REJECTED, rv, []⟩, ⟨PENDING, .undef, []⟩], [⟨0, ⟨.undef, REJECTED, .fn (.cap true 2), .fn (.cap false 2), 1⟩⟩], [], 2, [0]⟩ : World) 1 (.fn (.cap true 2)) (.fn (.cap false 2))).1 = (⟨[⟨FULFILLED, u, []⟩, ⟨REJECTED, rv, []⟩, ⟨PENDING, .undef, []⟩, ⟨PENDING, .undef, []⟩], [⟨0, ⟨.undef, REJECTED, .fn (.cap true 2), .fn (.cap false 2), 1⟩⟩, ⟨1, ⟨.fn (.cap true 2), FULFILLED, .fn (.cap true 3), .fn (.cap false 3), 2⟩⟩, ⟨1, ⟨.fn (.cap false 2), REJECTED, .fn (.cap true 3), .fn (.cap false 3), 3⟩⟩], [], 4, [0]⟩ : World) := by
      rw [mthen_settled_world_eq (q := (⟨REJECTED, rv, []⟩ : PromiseObj)) rfl
        (show (REJECTED : String) ≠ PENDING by decide) rfl]
      rfl
    have s3 : runTask (⟨[⟨FULFILLED, u, []⟩, ⟨REJECTED, rv, []⟩, ⟨PENDING, .undef, []⟩, ⟨PENDING, .undef, []⟩], [⟨1, ⟨.fn (.cap true 2), FULFILLED, .fn (.cap true 3), .fn (.cap false 3), 2⟩⟩, ⟨1, ⟨.fn (.cap false 2), REJECTED, .fn (.cap true 3), .fn (.cap false 3), 3⟩⟩], [], 4, [0]⟩ : World) ⟨0, ⟨.undef, REJECTED, .fn (.cap true 2), .fn (.cap false 2), 1⟩⟩ = (⟨[⟨FULFILLED, u, []⟩, ⟨REJECTED, rv, []⟩, ⟨PENDING, .undef, []⟩, ⟨PENDING, .undef, []⟩], [⟨1, ⟨.fn (.cap true 2), FULFILLED, .fn (.cap true 3), .fn (.cap false 3), 2⟩⟩, ⟨1, ⟨.fn (.cap false 2), REJECTED, .fn (.cap true 3), .fn (.cap false 3), 3⟩⟩], [], 4, [0, 1]⟩ : World) := by
      rw [runTask_skip (p := (⟨FULFILLED, u, []⟩ : PromiseObj)) rfl
        (show (FULFILLED : String) ≠ REJECTED by decide)]
      rfl
    have s4 : runTask (⟨[⟨FULFILLED, u, []⟩, ⟨REJECTED, rv, []⟩, ⟨PENDING, .undef, []⟩, ⟨PENDING, .undef, []⟩], [⟨1, ⟨.fn (.cap false 2), REJECTED, .fn (.cap true 3), .fn (.cap false 3), 3⟩⟩], [], 4, [0, 1]⟩ : World) ⟨1, ⟨.fn (.cap true 2), FULFILLED, .fn (.cap true 3), .fn (.cap false 3), 2⟩⟩ = (⟨[⟨FULFILLED, u, []⟩, ⟨REJECTED, rv, []⟩, ⟨PENDING, .undef, []⟩, ⟨PENDING, .undef, []⟩], [⟨1, ⟨.fn (.cap false 2), REJECTED, .fn (.cap true 3), .fn (.cap false 3), 3⟩⟩], [], 4, [0, 1, 2]⟩ : World) := by
      rw [runTask_skip (p := (⟨REJECTED, rv, []⟩ : PromiseObj)) rfl
        (show (REJECTED : String) ≠ FULFILLED by decide)]
      rfl
    have s5a : runTask (⟨[⟨FULFILLED, u, []⟩, ⟨REJECTED, rv, []⟩, ⟨PENDING, .undef, []⟩, ⟨PENDING, .undef, []⟩], [], [], 4, [0, 1, 2]⟩ : World) ⟨1, ⟨.fn (.cap false 2), REJECTED, .fn (.cap true 3), .fn (.cap false 3), 3⟩⟩
        = (callFn (changeState (⟨[⟨FULFILLED, u, []⟩, ⟨REJECTED, rv, []⟩, ⟨PENDING, .undef, []⟩, ⟨PENDING, .undef, []⟩], [], [], 4, [0, 1, 2, 3]⟩ : World) 2 (if false then FULFILLED else REJECTED) rv)
            (.fn (.cap true 3)) .undef).1 := by
      rw [runTask_cap_executor (p := (⟨REJECTED, rv, []⟩ : PromiseObj)) rfl rfl rfl]
      rfl
    have s5b : changeState (⟨[⟨FULFILLED, u, []⟩, ⟨REJECTED, rv, []⟩, ⟨PENDING, .undef, []⟩, ⟨PENDING, .undef, []⟩], [], [], 4, [0, 1, 2, 3]⟩ : World) 2 (if false then FULFILLED else REJECTED) rv
        = (⟨[⟨FULFILLED, u, []⟩, ⟨REJECTED, rv, []⟩, ⟨REJECTED, rv, []⟩, ⟨PENDING, .undef, []⟩], [], [], 4, [0, 1, 2, 3]⟩ : World) := by
      rw [changeState_pending (p := (⟨PENDING, .undef, []⟩ : PromiseObj)) rfl rfl (by decide) rv]
      rfl
    have s5c : callFn (⟨[⟨FULFILLED, u, []⟩, ⟨REJECTED, rv, []⟩, ⟨REJECTED, rv, []⟩, ⟨PENDING, .undef, []⟩], [], [], 4, [0, 1, 2, 3]⟩ : World) (.fn (.cap true 3)) .undef
        = (changeState (⟨[⟨FULFILLED, u, []⟩, ⟨REJECTED, rv, []⟩, ⟨REJECTED, rv, []⟩, ⟨PENDING, .undef, []⟩], [], [], 4, [0, 1, 2, 3]⟩ : World) 3 FULFILLED .undef, .normal .undef) := rfl
    have s5d : changeState (⟨[⟨FULFILLED, u, []⟩, ⟨REJECTED, rv, []⟩, ⟨REJECTED, rv, []⟩, ⟨PENDING, .undef, []⟩], [], [], 4, [0, 1, 2, 3]⟩ : World) 3 FULFILLED .undef = (⟨[⟨FULFILLED, u, []⟩, ⟨REJECTED, rv, []⟩, ⟨REJECTED, rv, []⟩, ⟨FULFILLED, .undef, []⟩], [], [], 4, [0, 1, 2, 3]⟩ : World) := by
      rw [changeState_pending (p := (⟨PENDING, .undef, []⟩ : PromiseObj)) rfl rfl (by decide) .undef]
      rfl
    rw [s1, runQueue_cons 3 rfl, s2a, s2b, runQueue_cons 2 rfl, s3, runQueue_cons 1 rfl,
      s4, runQueue_cons 0 rfl, s5a, s5b, s5c, s5d]
    exact ⟨rfl, rfl⟩

/-! ### C10 — any non-function continuation argument passes through -/

/-- C10: `then` stores its arguments unexamined and the dispatch tests
only `typeof executor === "function"` (source line 86), so any non-function
argument — not merely an absent one — behaves as a missing continuation:
for every pair of non-callable arguments, a source fulfilled with `v`
yields a downstream promise fulfilled with `v`, and a source rejected with
`r` yields a downstream promise rejected with `r`. -/
theorem then_nonfunction_argument_pass_through (v r nf1 nf2 : JsValue)
    (h1 : isCallable nf1 = false) (h2 : isCallable nf2 = false) :
    (stateAt (runQueue 2 (mthen (⟨[⟨FULFILLED, v, []⟩], [], [], 0, []⟩ : World) 0 nf1 nf2).1) 1 = some FULFILLED ∧
     valueAt (runQueue 2 (mthen (⟨[⟨FULFILLED, v, []⟩], [], [], 0, []⟩ : World) 0 nf1 nf2).1) 1 = some v) ∧
    (stateAt (runQueue 2 (mthen (⟨[⟨REJECTED, r, []⟩], [], [], 0, []⟩ : World) 0 nf1 nf2).1) 1 = some REJECTED ∧
     valueAt (runQueue 2 (mthen (⟨[⟨REJECTED, r, []⟩], [], [], 0, []⟩ : World) 0 nf1 nf2).1) 1 = some r) := by
  constructor
  · have t1 : (mthen (⟨[⟨FULFILLED, v, []⟩], [], [], 0, []⟩ : World) 0 nf1 nf2).1 = (⟨[⟨FULFILLED, v, []⟩, ⟨PENDING, .undef, []⟩], [⟨0, ⟨nf1, FULFILLED, .fn (.cap true 1), .fn (.cap false 1), 0⟩⟩, ⟨0, ⟨nf2, REJECTED, .fn (.cap true 1), .fn (.cap false 1), 1⟩⟩], [], 2, []⟩ : World) := by
      rw [mthen_settled_world_eq (q := (⟨FULFILLED, v, []⟩ : PromiseObj)) rfl
        (show (FULFILLED : String) ≠ PENDING by decide) rfl]
      rfl
    have t2a : runTask (⟨[⟨FULFILLED, v, []⟩, ⟨PENDING, .undef, []⟩], [⟨0, ⟨nf2, REJECTED, .fn (.cap true 1), .fn (.cap false 1), 1⟩⟩], [], 2, []⟩ : World) ⟨0, ⟨nf1, FULFILLED, .fn (.cap true 1), .fn (.cap false 1), 0⟩⟩ = (callFn (⟨[⟨FULFILLED, v, []⟩, ⟨PENDING, .undef, []⟩], [⟨0, ⟨nf2, REJECTED, .fn (.cap true 1), .fn (.cap false 1), 1⟩⟩], [], 2, [0]⟩ : World) (.fn (.cap true 1)) v).1 := by
      rw [runTask_noncallable_fulfilled (p := (⟨FULFILLED, v, []⟩ : PromiseObj)) rfl h1 rfl rfl]
      rfl
    have t2b : callFn (⟨[⟨FULFILLED, v, []⟩, ⟨PENDING, .undef, []⟩], [⟨0, ⟨nf2, REJECTED, .fn (.cap true 1), .fn (.cap false 1), 1⟩⟩], [], 2, [0]⟩ : World) (.fn (.cap true 1)) v
        = (changeState (⟨[⟨FULFILLED, v, []⟩, ⟨PENDING, .undef, []⟩], [⟨0, ⟨nf2, REJECTED, .fn (.cap true 1), .fn (.cap false 1), 1⟩⟩], [], 2, [0]⟩ : World) 1 FULFILLED v, .normal .undef) := rfl
    have t2c : changeState (⟨[⟨FULFILLED, v, []⟩, ⟨PENDING, .undef, []⟩], [⟨0, ⟨nf2, REJECTED, .fn (.cap true 1), .fn (.cap false 1), 1⟩⟩], [], 2, [0]⟩ : World) 1 FULFILLED v = (⟨[⟨FULFILLED, v, []⟩, ⟨FULFILLED, v, []⟩], [⟨0, ⟨nf2, REJECTED, .fn (.cap true 1), .fn (.cap false 1), 1⟩⟩], [], 2, [0]⟩ : World) := by
      rw [changeState_pending (p := (⟨PENDING, .undef, []⟩ : PromiseObj)) rfl rfl (by decide) v]
      rfl
    have t3 : runTask (⟨[⟨FULFILLED, v, []⟩, ⟨FULFILLED, v, []⟩], [], [], 2, [0]⟩ : World) ⟨0, ⟨nf2, REJECTED, .fn (.cap true 1), .fn (.cap false 1), 1⟩⟩ = (⟨[⟨FULFILLED, v, []⟩, ⟨FULFILLED, v, []⟩], [], [], 2, [0, 1]⟩ : World) := by
      rw [runTask_skip (p := (⟨FULFILLED, v, []⟩ : PromiseObj)) rfl
        (show (FULFILLED : String) ≠ REJECTED by decide)]
      rfl
    rw [t1, runQueue_cons 1 rfl, t2a, t2b, t2c, runQueue_cons 0 rfl, t3]
    exact ⟨rfl, rfl⟩
  · have t1 : (mthen (⟨[⟨REJECTED, r, []⟩], [], [], 0, []⟩ : World) 0 nf1 nf2).1 = (⟨[⟨REJECTED, r, []⟩, ⟨PENDING, .undef, []⟩], [⟨0, ⟨nf1, FULFILLED, .fn (.cap true 1), .fn (.cap false 1), 0⟩⟩, ⟨0, ⟨nf2, REJECTED, .fn (.cap true 1), .fn (.cap false 1), 1⟩⟩], [], 2, []⟩ : World) := by
      rw [mthen_settled_world_eq (q := (⟨REJECTED, r, []⟩ : PromiseObj)) rfl
        (show (REJECTED : String) ≠ PENDING by decide) rfl]
      rfl
    have t2 : runTask (⟨[⟨REJECTED, r, []⟩, ⟨PENDING, .undef, []⟩], [⟨0, ⟨nf2, REJECTED, .fn (.cap true 1), .fn (.cap false 1), 1⟩⟩], [], 2, []⟩ : World) ⟨0, ⟨nf1, FULFILLED, .fn (.cap true 1), .fn (.cap false 1), 0⟩⟩ = (⟨[⟨REJECTED, r, []⟩, ⟨PENDING, .undef, []⟩], [⟨0, ⟨nf2, REJECTED, .fn (.cap true 1), .fn (.cap false 1), 1⟩⟩], [], 2, [0]⟩ : World) := by
      rw [runTask_skip (p := (⟨REJECTED, r, []⟩ : PromiseObj)) rfl
        (show (REJECTED : String) ≠ FULFILLED by decide)]
      rfl
    have t3a : runTask (⟨[⟨REJECTED, r, []⟩, ⟨PENDING, .undef, []⟩], [], [], 2, [0]⟩ : World) ⟨0, ⟨nf2, REJECTED, .fn (.cap true 1), .fn (.cap false 1), 1⟩⟩ = (callFn (⟨[⟨REJECTED, r, []⟩, ⟨PENDING, .undef, []⟩], [], [], 2, [0, 1]⟩ : World) (.fn (.cap false 1)) r).1 := by
      rw [runTask_noncallable_rejected (p := (⟨REJECTED, r, []⟩ : PromiseObj)) rfl h2 rfl rfl]
      rfl
    have t3b : callFn (⟨[⟨REJECTED, r, []⟩, ⟨PENDING, .undef, []⟩], [], [], 2, [0, 1]⟩ : World) (.fn (.cap false 1)) r
        = (changeState (⟨[⟨REJECTED, r, []⟩, ⟨PENDING, .undef, []⟩], [], [], 2, [0, 1]⟩ : World) 1 REJECTED r, .normal .undef) := rfl
    have t3c : changeState (⟨[⟨REJECTED, r, []⟩, ⟨PENDING, .undef, []⟩], [], [], 2, [0, 1]⟩ : World) 1 REJECTED r = (⟨[⟨REJECTED, r, []⟩, ⟨REJECTED, r, []⟩], [], [], 2, [0, 1]⟩ : World) := by
      rw [changeState_pending (p := (⟨PENDING, .undef, []⟩ : PromiseObj)) rfl rfl (by decide) r]
      rfl
    rw [t1, runQueue_cons 1 rfl, t2, runQueue_cons 0 rfl, t3a, t3b, t3c]
    exact ⟨rfl, rfl⟩

/-- Concrete instance of C10: the number `42` and the string `"nf"` as
`then` arguments pass a fulfillment of `7` and a rejection of `"e"`
through unchanged. -/
theorem then_nonfunction_argument_pass_through_witness :
    (stateAt (runQueue 2 (mthen (⟨[⟨FULFILLED, .num 7, []⟩], [], [], 0, []⟩ : World)
          0 (.num 42) (.str "nf")).1) 1 = some FULFILLED ∧
     valueAt (runQueue 2 (mthen (⟨[⟨FULFILLED, .num 7, []⟩], [], [], 0, []⟩ : World)
          0 (.num 42) (.str "nf")).1) 1 = some (.num 7)) ∧
    (stateAt (runQueue 2 (mthen (⟨[⟨REJECTED, .str "e", []⟩], [], [], 0, []⟩ : World)
          0 (.num 42) (.str "nf")).1) 1 = some REJECTED ∧
     valueAt (runQueue 2 (mthen (⟨[⟨REJECTED, .str "e", []⟩], [], [], 0, []⟩ : World)
          0 (.num 42) (.str "nf")).1) 1 = some (.str "e")) :=
  then_nonfunction_argument_pass_through (.num 7) (.str "e") (.num 42) (.str "nf") rfl rfl

/-! ### C6 — the all combinator: helper lemmas -/


theorem length_allSetIdx (l : List (Option JsValue)) (i : Nat) (v : JsValue) :
    (allSetIdx l i v).length = l.length + (i + 1 - l.length) := by
  simp [allSetIdx]

theorem allSlot_allSetIdx_self (l : List (Option JsValue)) (i : Nat) (v : JsValue) :
    allSlot (allSetIdx l i v) i = some v := by
  unfold allSlot allSetIdx
  rw [List.getElem?_set_self]
  · rfl
  · rw [List.length_append, List.length_replicate]
    omega

theorem allSlot_allSetIdx_ne (l : List (Option JsValue)) (i j : Nat) (v : JsValue)
    (hne : j ≠ i) : allSlot (allSetIdx l i v) j = allSlot l j := by
  unfold allSlot allSetIdx
  rw [List.getElem?_set_ne (fun h => hne h.symm)]
  by_cases hj : j < l.length
  · rw [List.getElem?_append_left hj]
  · rw [List.getElem?_append_right (by omega)]
    rw [List.getElem?_replicate]
    rw [List.getElem?_eq_none (by omega)]
    split
    · rfl
    · rfl

theorem allSlot_out_of_range (l : List (Option JsValue)) (j : Nat) (h : l.length ≤ j) :
    allSlot l j = none := by
  unfold allSlot
  rw [List.getElem?_eq_none h]
  rfl

theorem allResultsArr_of_filled (l : List (Option JsValue)) (n : Nat) (vs : Nat → JsValue)
    (hlen : l.length = n) (hfill : ∀ j, j < n → allSlot l j = some (vs j)) :
    allResultsArr l = .arr ((List.range n).map vs) := by
  unfold allResultsArr
  congr 1
  apply List.ext_getElem
  · simp [hlen]
  · intro k h1 h2
    have hk : k < n := by simpa [hlen] using h1
    have h3 : k < l.length := by omega
    have := hfill k hk
    unfold allSlot at this
    rw [List.getElem?_eq_getElem h3] at this
    simp only [Option.getD_some] at this
    simp [this, List.getElem_range]



theorem deliver_fulfill_nofire {w : World} {cid : Nat} {c : AllClosure}
    (hc : w.closures[cid]? = some c) {i : Nat} {v : JsValue}
    (hne : c.fulfilledCount + 1 ≠ c.count) :
    deliver w cid (.fulfillIdx i v) =
      setClosure w cid
        { c with fulfilledCount := c.fulfilledCount + 1, results := allSetIdx c.results i v } := by
  unfold deliver callFn
  dsimp only
  rw [hc]
  dsimp only
  rw [if_neg hne]

theorem deliver_fulfill_fire {w : World} {cid : Nat} {c : AllClosure}
    (hc : w.closures[cid]? = some c) {i : Nat} {v : JsValue}
    (heq : c.fulfilledCount + 1 = c.count) :
    deliver w cid (.fulfillIdx i v) =
      changeState
        (setClosure w cid
          { c with fulfilledCount := c.fulfilledCount + 1, results := allSetIdx c.results i v })
        c.resultPid FULFILLED (allResultsArr (allSetIdx c.results i v)) := by
  unfold deliver callFn
  dsimp only
  rw [hc]
  dsimp only
  rw [if_pos heq]

theorem deliver_reject_eq {w : World} {cid : Nat} {c : AllClosure}
    (hc : w.closures[cid]? = some c) {r : JsValue} :
    deliver w cid (.rejectWith r) = changeState w c.resultPid REJECTED r := by
  unfold deliver
  dsimp only
  rw [hc]
  rfl

theorem getC_setClosure (w : World) (q cid : Nat) (c : AllClosure) :
    (setClosure w q c).closures[cid]? =
      if q = cid ∧ q < w.closures.length then some c else w.closures[cid]? := by
  unfold setClosure
  simp only [List.getElem?_set]
  by_cases h : q = cid
  · subst h
    by_cases h2 : q < w.closures.length
    · simp [h2]
    · simp [h2]
      omega
  · simp [h]

theorem stateAt_setClosure (w : World) (cid : Nat) (c : AllClosure) (pid : Nat) :
    stateAt (setClosure w cid c) pid = stateAt w pid := rfl

theorem deliverList_append (w : World) (cid : Nat) (xs ys : List Delivery) :
    deliverList w cid (xs ++ ys) = deliverList (deliverList w cid xs) cid ys := by
  induction xs generalizing w with
  | nil => rfl
  | cons d ds ih => exact ih (deliver w cid d)

theorem deliver_settled_preserved {w : World} {rp : Nat} {s : String}
    (hs : stateAt w rp = some s) (hsne : s ≠ PENDING) (cid : Nat) (d : Delivery) :
    stateAt (deliver w cid d) rp = some s ∧
    valueAt (deliver w cid d) rp = valueAt w rp := by
  cases d with
  | fulfillIdx i v =>
      cases hc : w.closures[cid]? with
      | none =>
          unfold deliver callFn
          dsimp only
          rw [hc]
          exact ⟨hs, rfl⟩
      | some c =>
          by_cases hfire : c.fulfilledCount + 1 = c.count
          · rw [deliver_fulfill_fire hc hfire]
            by_cases hrp : c.resultPid = rp
            · subst hrp
              have hs2 : stateAt (setClosure w cid
                  { c with fulfilledCount := c.fulfilledCount + 1,
                           results := allSetIdx c.results i v }) c.resultPid = some s := hs
              rw [changeState_stable hs2 hsne]
              exact ⟨hs, rfl⟩
            · rw [stateAt_changeState_ne _ _ _ _ _ (fun h => hrp h)]
              rw [valueAt_changeState_ne _ _ _ _ _ (fun h => hrp h)]
              exact ⟨hs, rfl⟩
          · rw [deliver_fulfill_nofire hc hfire]
            exact ⟨hs, rfl⟩
  | rejectWith r =>
      cases hc : w.closures[cid]? with
      | none =>
          unfold deliver
          rw [hc]
          exact ⟨hs, rfl⟩
      | some c =>
          rw [deliver_reject_eq hc]
          by_cases hrp : c.resultPid = rp
          · subst hrp
            rw [changeState_stable hs hsne]
            exact ⟨hs, rfl⟩
          · rw [stateAt_changeState_ne _ _ _ _ _ (fun h => hrp h)]
            rw [valueAt_changeState_ne _ _ _ _ _ (fun h => hrp h)]
            exact ⟨hs, rfl⟩

theorem deliverList_settled_preserved {rp : Nat} {s : String} (cid : Nat)
    (ds : List Delivery) :
    ∀ w : World, stateAt w rp = some s → s ≠ PENDING →
      stateAt (deliverList w cid ds) rp = some s ∧
      valueAt (deliverList w cid ds) rp = valueAt w rp := by
  induction ds with
  | nil => exact fun w hs _ => ⟨hs, rfl⟩
  | cons d ds ih =>
      intro w hs hsne
      unfold deliverList
      obtain ⟨h1, h2⟩ := deliver_settled_preserved hs hsne cid d
      obtain ⟨h3, h4⟩ := ih (deliver w cid d) h1 hsne
      exact ⟨h3, h4.trans h2⟩



theorem deliverList_all_fulfilled (n rp cid : Nat) (vs : Nat → JsValue) :
    ∀ (js : List Nat) (w : World) (c : AllClosure) (p : PromiseObj),
      w.closures[cid]? = some c →
      c.count = n → c.resultPid = rp →
      c.fulfilledCount + js.length = n →
      (∀ j, j < n → allSlot c.results j = if j ∈ js then none else some (vs j)) →
      c.results.length ≤ n →
      js.Nodup → (∀ j ∈ js, j < n) →
      js ≠ [] →
      w.promises[rp]? = some p → p.pstate = PENDING →
      stateAt (deliverList w cid (js.map (fun i => Delivery.fulfillIdx i (vs i)))) rp
          = some FULFILLED ∧
      valueAt (deliverList w cid (js.map (fun i => Delivery.fulfillIdx i (vs i)))) rp
          = some (.arr ((List.range n).map vs)) := by
  intro js
  induction js with
  | nil =>
      intro w c p _ _ _ _ _ _ _ _ hne _ _
      exact absurd rfl hne
  | cons i js ih =>
      intro w c p hc hcount hrpid hfc hslot hlen hnodup hbound _ hp hpend
      subst hrpid
      have hi : i < n := hbound i (List.mem_cons_self i js)
      have hclt : cid < w.closures.length := (List.getElem?_eq_some.mp hc).1
      have hinotin : i ∉ js := (List.nodup_cons.mp hnodup).1
      simp only [List.map_cons, deliverList]
      by_cases hlast : js = []
      · subst hlast
        simp only [List.map_nil, deliverList]
        have hfire : c.fulfilledCount + 1 = c.count := by
          simp only [List.length_cons, List.length_nil] at hfc
          omega
        rw [deliver_fulfill_fire hc hfire]
        have hfill : ∀ j, j < n → allSlot (allSetIdx c.results i (vs i)) j = some (vs j) := by
          intro j hj
          by_cases hji : j = i
          · subst hji
            exact allSlot_allSetIdx_self ..
          · rw [allSlot_allSetIdx_ne _ _ _ _ hji]
            have := hslot j hj
            simp only [List.mem_singleton] at this
            rw [this, if_neg hji]
        have hlenq : (allSetIdx c.results i (vs i)).length = n := by
          have hle : (allSetIdx c.results i (vs i)).length ≤ n := by
            rw [length_allSetIdx]
            omega
          rcases Nat.lt_or_ge (allSetIdx c.results i (vs i)).length n with hlt | hge
          · exfalso
            have h1 := hfill _ hlt
            rw [allSlot_out_of_range _ _ (Nat.le_refl _)] at h1
            exact Option.noConfusion h1
          · omega
        have harr : allResultsArr (allSetIdx c.results i (vs i))
            = .arr ((List.range n).map vs) := allResultsArr_of_filled _ n vs hlenq hfill
        rw [harr]
        have hp2 : (setClosure w cid
            { c with fulfilledCount := c.fulfilledCount + 1,
                     results := allSetIdx c.results i (vs i) }).promises[c.resultPid]? = some p := hp
        have hlt2 : c.resultPid < (setClosure w cid
            { c with fulfilledCount := c.fulfilledCount + 1,
                     results := allSetIdx c.results i (vs i) }).promises.length :=
          (List.getElem?_eq_some.mp hp2).1
        rw [changeState_pending hp2 hpend (by decide) _]
        constructor
        · unfold stateAt
          dsimp only
          rw [List.getElem?_set_self hlt2]
          rfl
        · unfold valueAt
          dsimp only
          rw [List.getElem?_set_self hlt2]
          rfl
      · have hnofire : c.fulfilledCount + 1 ≠ c.count := by
          have : 0 < js.length := List.length_pos.mpr hlast
          simp only [List.length_cons] at hfc
          omega
        rw [deliver_fulfill_nofire hc hnofire]
        apply ih (setClosure w cid
            { c with fulfilledCount := c.fulfilledCount + 1,
                     results := allSetIdx c.results i (vs i) })
          { c with fulfilledCount := c.fulfilledCount + 1,
                   results := allSetIdx c.results i (vs i) } p
        · rw [getC_setClosure, if_pos ⟨rfl, hclt⟩]
        · exact hcount
        · rfl
        · simp only [List.length_cons] at hfc
          simp only
          omega
        · intro j hj
          by_cases hji : j = i
          · subst hji
            simp only
            rw [allSlot_allSetIdx_self, if_neg hinotin]
          · simp only
            rw [allSlot_allSetIdx_ne _ _ _ _ hji]
            rw [hslot j hj]
            by_cases hmem : j ∈ js
            · rw [if_pos hmem, if_pos (List.mem_cons_of_mem i hmem)]
            · rw [if_neg hmem, if_neg (by simp [hji, hmem])]
        · simp only
          rw [length_allSetIdx]
          omega
        · exact (List.nodup_cons.mp hnodup).2
        · exact fun j hj => hbound j (List.mem_cons_of_mem i hj)
        · exact hlast
        · exact hp
        · exact hpend



theorem deliverList_fulfills_keep_pending (n rp cid : Nat) :
    ∀ (fs : List Delivery) (w : World) (c : AllClosure) (p : PromiseObj),
      w.closures[cid]? = some c →
      c.count = n → c.resultPid = rp →
      c.fulfilledCount + fs.length < n →
      (∀ d ∈ fs, ∃ i v, d = Delivery.fulfillIdx i v) →
      w.promises[rp]? = some p → p.pstate = PENDING →
      ∃ c2, (deliverList w cid fs).closures[cid]? = some c2 ∧
        c2.count = n ∧ c2.resultPid = rp ∧
        c2.fulfilledCount = c.fulfilledCount + fs.length ∧
        (deliverList w cid fs).promises[rp]? = some p := by
  intro fs
  induction fs with
  | nil =>
      intro w c p hc h1 h2 _ _ hp _
      exact ⟨c, hc, h1, h2, by simp, hp⟩
  | cons d ds ih =>
      intro w c p hc hcount hrpid hlt hshape hp hpend
      obtain ⟨i, v, rfl⟩ := hshape d (List.mem_cons_self d ds)
      have hclt : cid < w.closures.length := (List.getElem?_eq_some.mp hc).1
      have hnofire : c.fulfilledCount + 1 ≠ c.count := by
        simp only [List.length_cons] at hlt
        omega
      simp only [deliverList]
      rw [deliver_fulfill_nofire hc hnofire]
      obtain ⟨c2, g1, g2, g3, g4, g5⟩ := ih (setClosure w cid
          { c with fulfilledCount := c.fulfilledCount + 1, results := allSetIdx c.results i v })
        { c with fulfilledCount := c.fulfilledCount + 1, results := allSetIdx c.results i v } p
        (by rw [getC_setClosure, if_pos ⟨rfl, hclt⟩])
        hcount hrpid
        (by simp only [List.length_cons] at hlt; simp only; omega)
        (fun d hd => hshape d (List.mem_cons_of_mem _ hd))
        hp hpend
      refine ⟨c2, g1, g2, g3, ?_, g5⟩
      rw [g4]
      simp only [List.length_cons]
      omega

theorem deliverList_first_reject {n rp cid : Nat}
    {fs : List Delivery} {r : JsValue} {rest : List Delivery}
    {w : World} {c : AllClosure} {p : PromiseObj}
    (hc : w.closures[cid]? = some c)
    (hcount : c.count = n) (hrpid : c.resultPid = rp)
    (hlt : c.fulfilledCount + fs.length < n)
    (hshape : ∀ d ∈ fs, ∃ i v, d = Delivery.fulfillIdx i v)
    (hp : w.promises[rp]? = some p) (hpend : p.pstate = PENDING) :
    stateAt (deliverList w cid (fs ++ Delivery.rejectWith r :: rest)) rp = some REJECTED ∧
    valueAt (deliverList w cid (fs ++ Delivery.rejectWith r :: rest)) rp = some r := by
  rw [deliverList_append]
  obtain ⟨c2, hc2, hcnt2, hrp2, hfc2, hp2⟩ :=
    deliverList_fulfills_keep_pending n rp cid fs w c p hc hcount hrpid hlt hshape hp hpend
  have hlt2 : rp < (deliverList w cid fs).promises.length := (List.getElem?_eq_some.mp hp2).1
  have hchg := changeState_pending hp2 hpend (show REJECTED ≠ PENDING by decide) r
  have hstate : stateAt (changeState (deliverList w cid fs) rp REJECTED r) rp
      = some REJECTED := by
    rw [hchg]
    unfold stateAt
    dsimp only
    rw [List.getElem?_set_self hlt2]
    rfl
  have hvalue : valueAt (changeState (deliverList w cid fs) rp REJECTED r) rp = some r := by
    rw [hchg]
    unfold valueAt
    dsimp only
    rw [List.getElem?_set_self hlt2]
    rfl
  simp only [deliverList]
  rw [deliver_reject_eq hc2, hrp2]
  obtain ⟨hs, hv⟩ := deliverList_settled_preserved cid rest _ hstate (by decide)
  exact ⟨hs, hv.trans hvalue⟩

theorem pushHandler_closures (w : World) (pid : Nat) (e : JsValue) (st : String)
    (rf rj : JsValue) : (pushHandler w pid e st rf rj).closures = w.closures := by
  unfold pushHandler
  split <;> rfl

theorem stateAt_pushHandler (w : World) (q pid : Nat) (e : JsValue) (st : String)
    (rf rj : JsValue) : stateAt (pushHandler w q e st rf rj) pid = stateAt w pid := by
  unfold pushHandler
  split
  · rfl
  next p hp =>
    unfold stateAt
    have := getP_setPromise w q pid
      { p with handlers := p.handlers ++ [⟨e, st, rf, rj, w.nextHid⟩] }
    dsimp only
    rw [this]
    split
    next hcnd =>
      rw [hcnd.1] at hp
      rw [hp]
      rfl
    · rfl

theorem mthen_closures (w : World) (s : Nat) (f g : JsValue) :
    (mthen w s f g).1.closures = w.closures := by
  unfold mthen construct
  dsimp only
  rw [runHandlers_closures, pushHandler_closures, pushHandler_closures]

theorem stateAt_mthen (w : World) (s : Nat) (f g : JsValue) (pid : Nat)
    (hlt : pid < w.promises.length) :
    stateAt (mthen w s f g).1 pid = stateAt w pid := by
  unfold mthen construct
  dsimp only
  rw [stateAt_runHandlers, stateAt_pushHandler, stateAt_pushHandler]
  unfold stateAt
  dsimp only
  rw [List.getElem?_append_left hlt]



theorem sresolve_closures (w : World) (d : JsValue) :
    (sresolve w d).1.closures = w.closures := by
  unfold sresolve
  split
  · rfl
  · unfold construct
    dsimp only
    show (changeState { w with promises := w.promises ++ [⟨PENDING, .undef, []⟩] }
        w.promises.length (if true then FULFILLED else REJECTED) d).closures = w.closures
    rw [changeState_closures]

theorem stateAt_sresolve (w : World) (d : JsValue) (pid : Nat)
    (hlt : pid < w.promises.length) :
    stateAt (sresolve w d).1 pid = stateAt w pid := by
  unfold sresolve
  split
  · rfl
  · unfold construct
    dsimp only
    show stateAt (changeState { w with promises := w.promises ++ [⟨PENDING, .undef, []⟩] }
        w.promises.length (if true then FULFILLED else REJECTED) d) pid = stateAt w pid
    rw [stateAt_changeState_ne _ _ _ _ _ (by omega)]
    unfold stateAt
    dsimp only
    rw [List.getElem?_append_left hlt]



theorem sallLoop_inv (cid rp : Nat) :
    ∀ (proms : List JsValue) (w : World) (k : Nat),
      w.closures[cid]? = some ⟨[], k, 0, rp⟩ →
      stateAt w rp = some PENDING →
      (sallLoop w cid proms).closures[cid]? = some ⟨[], k + proms.length, 0, rp⟩ ∧
      stateAt (sallLoop w cid proms) rp = some PENDING := by
  intro proms
  induction proms with
  | nil =>
      intro w k hc hpend
      constructor
      · simpa using hc
      · exact hpend
  | cons prom rest ih =>
      intro w k hc hpend
      have hclt : cid < w.closures.length := (List.getElem?_eq_some.mp hc).1
      have hrplt : rp < w.promises.length := by
        obtain ⟨p, hp, _⟩ := stateAt_eq_some hpend
        exact (List.getElem?_eq_some.mp hp).1
      simp only [sallLoop]
      rw [hc]
      dsimp only
      have hc1 : (setClosure w cid ⟨[], k + 1, 0, rp⟩).closures[cid]? =
          some ⟨[], k + 1, 0, rp⟩ := by
        rw [getC_setClosure, if_pos ⟨rfl, hclt⟩]
      have hpend1 : stateAt (setClosure w cid ⟨[], k + 1, 0, rp⟩) rp = some PENDING := hpend
      have hrplt1 : rp < (setClosure w cid ⟨[], k + 1, 0, rp⟩).promises.length := hrplt
      have hc2 : (sresolve (setClosure w cid ⟨[], k + 1, 0, rp⟩) prom).1.closures[cid]? =
          some ⟨[], k + 1, 0, rp⟩ := by
        rw [sresolve_closures]
        exact hc1
      have hpend2 : stateAt (sresolve (setClosure w cid ⟨[], k + 1, 0, rp⟩) prom).1 rp =
          some PENDING := by
        rw [stateAt_sresolve _ _ _ hrplt1]
        exact hpend1
      have hrplt2 : rp < (sresolve (setClosure w cid ⟨[], k + 1, 0, rp⟩) prom).1.promises.length := by
        obtain ⟨p, hp, _⟩ := stateAt_eq_some hpend2
        exact (List.getElem?_eq_some.mp hp).1
      have hc3 : (mthen (sresolve (setClosure w cid ⟨[], k + 1, 0, rp⟩) prom).1
          (sresolve (setClosure w cid ⟨[], k + 1, 0, rp⟩) prom).2
          (.fn (.allCb cid k)) (.fn (.cap false rp))).1.closures[cid]? =
          some ⟨[], k + 1, 0, rp⟩ := by
        rw [mthen_closures]
        exact hc2
      have hpend3 : stateAt (mthen (sresolve (setClosure w cid ⟨[], k + 1, 0, rp⟩) prom).1
          (sresolve (setClosure w cid ⟨[], k + 1, 0, rp⟩) prom).2
          (.fn (.allCb cid k)) (.fn (.cap false rp))).1 rp = some PENDING := by
        rw [stateAt_mthen _ _ _ _ _ hrplt2]
        exact hpend2
      obtain ⟨g1, g2⟩ := ih _ (k + 1) hc3 hpend3
      constructor
      · rw [g1]
        simp only [List.length_cons]
        congr 2
        omega
      · exact g2



theorem sall_empty_fulfills (w : World) :
    stateAt (sall w []).1 (sall w []).2 = some FULFILLED ∧
    valueAt (sall w []).1 (sall w []).2 = some (.arr []) := by
  unfold sall construct
  dsimp only
  simp only [sallLoop]
  rw [List.getElem?_concat_length]
  dsimp only
  rw [if_pos rfl]
  have hp : ({ w with
        promises := w.promises ++ [(⟨PENDING, .undef, []⟩ : PromiseObj)],
        closures := w.closures ++ [(⟨[], 0, 0, w.promises.length⟩ : AllClosure)] } :
      World).promises[w.promises.length]? = some ⟨PENDING, .undef, []⟩ := by
    dsimp only
    rw [List.getElem?_concat_length]
  have hchg := changeState_pending hp rfl (show FULFILLED ≠ PENDING by decide)
    (allResultsArr ([] : List (Option JsValue)))
  have hlt : w.promises.length < (w.promises ++ [(⟨PENDING, .undef, []⟩ : PromiseObj)]).length := by
    simp
  constructor
  · show stateAt (changeState _ (w.promises.length) FULFILLED
        (allResultsArr ([] : List (Option JsValue)))) (w.promises.length) = some FULFILLED
    rw [hchg]
    unfold stateAt
    dsimp only
    rw [List.getElem?_set_self hlt]
    rfl
  · show valueAt (changeState _ (w.promises.length) FULFILLED
        (allResultsArr ([] : List (Option JsValue)))) (w.promises.length) = some (.arr [])
    rw [hchg]
    unfold valueAt
    dsimp only
    rw [List.getElem?_set_self hlt]
    rfl

theorem sall_nonempty_init (w : World) (proms : List JsValue) (hne : proms ≠ []) :
    (sall w proms).2 = w.promises.length ∧
    (sall w proms).1.closures[w.closures.length]? =
      some ⟨[], proms.length, 0, w.promises.length⟩ ∧
    stateAt (sall w proms).1 w.promises.length = some PENDING := by
  have hc0 : ({ w with
        promises := w.promises ++ [(⟨PENDING, .undef, []⟩ : PromiseObj)],
        closures := w.closures ++ [(⟨[], 0, 0, w.promises.length⟩ : AllClosure)] } :
      World).closures[w.closures.length]? = some ⟨[], 0, 0, w.promises.length⟩ := by
    dsimp only
    rw [List.getElem?_concat_length]
  have hpend0 : stateAt ({ w with
        promises := w.promises ++ [(⟨PENDING, .undef, []⟩ : PromiseObj)],
        closures := w.closures ++ [(⟨[], 0, 0, w.promises.length⟩ : AllClosure)] } :
      World) (w.promises.length) = some PENDING := by
    unfold stateAt
    dsimp only
    rw [List.getElem?_concat_length]
    rfl
  obtain ⟨g1, g2⟩ := sallLoop_inv w.closures.length w.promises.length proms _ 0 hc0 hpend0
  unfold sall construct
  dsimp only
  rw [g1]
  dsimp only
  rw [if_neg (show ¬ (0 + proms.length = 0) from
    fun h => hne (List.length_eq_zero.mp (by omega)))]
  exact ⟨rfl, by simpa using g1, g2⟩



/-! ### C6 — all: input order, first-reject-wins, empty input -/

/-- C6: for a `MyPromise.all` closure over `n` inputs bound to a pending
result promise, (i) when the inputs' fulfillment outcomes are delivered to
the closure in ANY completion order (any permutation `js` of the input
indices, index `i` carrying value `vs i`), the result promise fulfills
with the values in input order `[vs 0, ..., vs (n-1)]`; (ii) if any
delivery sequence opens with fewer than `n` fulfillments followed by a
first rejection carrying `r`, the result promise rejects with `r`, and
every later delivery is ignored; (iii) `all([])` fulfills immediately with
the empty array; (iv) `MyPromise.all` itself builds exactly the
configuration hypothesised here: for a nonempty input list it allocates a
fresh pending result promise and a closure with empty `results`, `count`
equal to the number of inputs and `fulfilledCount` zero.  (Deliveries
model the firing of the handlers `all` registers on its inputs, each of
which fires at most once per input — claim C2.) -/
theorem all_fulfills_in_order_rejects_first (n rp cid : Nat) (vs : Nat → JsValue)
    (w : World) (p : PromiseObj) (js : List Nat)
    (hc : w.closures[cid]? = some ⟨[], n, 0, rp⟩)
    (hp : w.promises[rp]? = some p) (hpend : p.pstate = PENDING)
    (hperm : js.Perm (List.range n)) (hn : 0 < n) :
    (stateAt (deliverList w cid (js.map (fun i => Delivery.fulfillIdx i (vs i)))) rp
        = some FULFILLED ∧
     valueAt (deliverList w cid (js.map (fun i => Delivery.fulfillIdx i (vs i)))) rp
        = some (.arr ((List.range n).map vs))) ∧
    (∀ (fs : List Delivery) (r : JsValue) (rest : List Delivery),
        (∀ d ∈ fs, ∃ i v, d = Delivery.fulfillIdx i v) → fs.length < n →
        stateAt (deliverList w cid (fs ++ Delivery.rejectWith r :: rest)) rp = some REJECTED ∧
        valueAt (deliverList w cid (fs ++ Delivery.rejectWith r :: rest)) rp = some r) ∧
    (∀ w2 : World, stateAt (sall w2 []).1 (sall w2 []).2 = some FULFILLED ∧
        valueAt (sall w2 []).1 (sall w2 []).2 = some (.arr [])) ∧
    (∀ (w3 : World) (proms : List JsValue), proms ≠ [] →
        (sall w3 proms).2 = w3.promises.length ∧
        (sall w3 proms).1.closures[w3.closures.length]? =
          some ⟨[], proms.length, 0, w3.promises.length⟩ ∧
        stateAt (sall w3 proms).1 w3.promises.length = some PENDING) := by
  have hjslen : js.length = n := hperm.length_eq.trans (List.length_range n)
  refine ⟨?_, ?_, sall_empty_fulfills, sall_nonempty_init⟩
  · apply deliverList_all_fulfilled n rp cid vs js w ⟨[], n, 0, rp⟩ p hc rfl rfl
    · simpa using hjslen
    · intro j hj
      rw [allSlot_out_of_range _ _ (Nat.zero_le j)]
      rw [if_pos (hperm.mem_iff.mpr (List.mem_range.mpr hj))]
    · exact Nat.zero_le n
    · exact hperm.nodup_iff.mpr (List.nodup_range n)
    · exact fun j hj => List.mem_range.mp (hperm.subset hj)
    · intro h
      rw [h] at hjslen
      simp at hjslen
      omega
    · exact hp
    · exact hpend
  · intro fs r rest hshape hflt
    exact deliverList_first_reject hc rfl rfl (by simpa using hflt) hshape hp hpend

/-- Concrete instance of C6: two inputs completing in reverse order
(input 1 with `2` first, then input 0 with `1`) still fulfill the result
with `[1, 2]`. -/
theorem all_fulfills_in_order_rejects_first_witness :
    (stateAt (deliverList (⟨[⟨PENDING, .undef, []⟩], [], [⟨[], 2, 0, 0⟩], 0, []⟩ : World) 0
        ([1, 0].map (fun i => Delivery.fulfillIdx i ((fun i => JsValue.num (i + 1)) i)))) 0
        = some FULFILLED ∧
     valueAt (deliverList (⟨[⟨PENDING, .undef, []⟩], [], [⟨[], 2, 0, 0⟩], 0, []⟩ : World) 0
        ([1, 0].map (fun i => Delivery.fulfillIdx i ((fun i => JsValue.num (i + 1)) i)))) 0
        = some (.arr ((List.range 2).map (fun i => JsValue.num (i + 1))))) ∧
    (∀ (fs : List Delivery) (r : JsValue) (rest : List Delivery),
        (∀ d ∈ fs, ∃ i v, d = Delivery.fulfillIdx i v) → fs.length < 2 →
        stateAt (deliverList (⟨[⟨PENDING, .undef, []⟩], [], [⟨[], 2, 0, 0⟩], 0, []⟩ : World) 0
            (fs ++ Delivery.rejectWith r :: rest)) 0 = some REJECTED ∧
        valueAt (deliverList (⟨[⟨PENDING, .undef, []⟩], [], [⟨[], 2, 0, 0⟩], 0, []⟩ : World) 0
            (fs ++ Delivery.rejectWith r :: rest)) 0 = some r) ∧
    (∀ w2 : World, stateAt (sall w2 []).1 (sall w2 []).2 = some FULFILLED ∧
        valueAt (sall w2 []).1 (sall w2 []).2 = some (.arr [])) ∧
    (∀ (w3 : World) (proms : List JsValue), proms ≠ [] →
        (sall w3 proms).2 = w3.promises.length ∧
        (sall w3 proms).1.closures[w3.closures.length]? =
          some ⟨[], proms.length, 0, w3.promises.length⟩ ∧
        stateAt (sall w3 proms).1 w3.promises.length = some PENDING) :=
  all_fulfills_in_order_rejects_first 2 0 0 (fun i => JsValue.num (i + 1))
    (⟨[⟨PENDING, .undef, []⟩], [], [⟨[], 2, 0, 0⟩], 0, []⟩ : World)
    ⟨PENDING, .undef, []⟩ [1, 0] rfl rfl rfl (by decide) (by decide)

end MyPromise
